import Mathlib

/-!
Shallow embedding of the NetScene Pi-hole stats retrieval core
(`src/src-tauri/src/lib.rs`) and its ARP-output parser, together with
proofs settling the frozen claims about the repository.

Modelling conventions:
* Rust `u64` fields are `Nat` (with explicit `< 2 ^ 64` bounds where the
  JSON deserializer enforces them); Rust `f64` values are modelled as `ℚ`
  (the comparisons the code performs — `> 100.0` — are exact on the
  decimal literals involved).
* Network activity is made explicit: each HTTP exchange is an input
  (`AuthOutcome`, `Outcome`) and each issued request is recorded in a
  trace, so "does not attempt the remaining endpoint" is a statement
  about the trace.
* The external `url` crate's parser is an explicit parameter
  `urlParse : String → Except String Url`; the code under verification
  only trims/prepends a scheme, invokes the parser, and edits
  path/query of the result, and those edits are modelled directly.
-/

/-- The set of characters Rust's `char::is_whitespace` (Unicode
`White_Space`) accepts; used by `str::trim` / `str::trim_start`. -/
def rustIsWhitespace (c : Char) : Bool :=
  (0x9 ≤ c.toNat && c.toNat ≤ 0xd) || c.toNat == 0x20 || c.toNat == 0x85 ||
  c.toNat == 0xa0 || c.toNat == 0x1680 ||
  (0x2000 ≤ c.toNat && c.toNat ≤ 0x200a) ||
  c.toNat == 0x2028 || c.toNat == 0x2029 || c.toNat == 0x202f ||
  c.toNat == 0x205f || c.toNat == 0x3000

/-- Rust `str::trim_start`. -/
def rustTrimStart (s : String) : String :=
  ⟨s.data.dropWhile rustIsWhitespace⟩

/-- Rust `str::trim` (both ends). -/
def rustTrim (s : String) : String :=
  ⟨((s.data.dropWhile rustIsWhitespace).reverse.dropWhile rustIsWhitespace).reverse⟩

/-- Whether `p` is a literal prefix of `s` (Rust `str::starts_with` on a literal). -/
def strStarts (s p : String) : Bool :=
  p.data.isPrefixOf s.data

/-- Split a character list at every `'\n'` (the separators are not kept;
`n + 1` pieces for `n` newlines). -/
def splitNl : List Char → List (List Char)
  | [] => [[]]
  | c :: r =>
    if c = '\n' then [] :: splitNl r
    else
      match splitNl r with
      | h :: t => (c :: h) :: t
      | [] => [[c]]

/-- Rust `str::lines`: split on `'\n'`, stripping one trailing `'\r'`
from each `'\n'`-terminated line; the text after the last `'\n'` is a
final line only if non-empty (and keeps any trailing `'\r'`). -/
def rustLines (s : String) : List String :=
  let pieces := splitNl s.data
  let term := pieces.dropLast.map fun p =>
    if p.getLast? = some '\r' then p.dropLast else p
  let tail := pieces.getLast?.getD []
  (if tail = [] then term else term ++ [tail]).map fun p => (⟨p⟩ : String)

/-! ## Device record parser (lib.rs lines 88–107)

`parse_arp_output` applies the regex
`(?i)([0-9]{1,3}(?:\.[0-9]{1,3}){3}).*?([0-9a-f]{2}([-:][0-9a-f]{2}){5})`
to each line of the input and, on a match, emits capture 1 (the IP)
verbatim and capture 2 (the MAC) with every `-` replaced by `:`.
The matcher below implements the leftmost-first match semantics of the
`regex` crate for exactly this pattern: start positions are scanned left
to right; at a fixed start the four digit groups are tried greedily
(3, then 2, then 1 digits, with backtracking across groups) and `.*?` is
lazy, so the earliest MAC occurrence after the chosen IP is taken; `.`
does not cross a `'\n'`. -/

/-- A discovered network device (lib.rs lines 12–18). -/
structure Device where
  ip : String
  mac : String
deriving DecidableEq, Repr

def isDigitChar (c : Char) : Bool := '0' ≤ c && c ≤ '9'

/-- The character class `[0-9a-f]` under the `(?i)` flag. -/
def isHexChar (c : Char) : Bool :=
  isDigitChar c || ('a' ≤ c && c ≤ 'f') || ('A' ≤ c && c ≤ 'F')

/-- The character class `[-:]`. -/
def isSepChar (c : Char) : Bool := c = ':' || c = '-'

/-- Candidate (capture, remainder) splits for `[0-9]{1,3}` at the head
of `l`, in the greedy backtracking order: 3, then 2, then 1 digits. -/
def digitCands (l : List Char) : List (List Char × List Char) :=
  [3, 2, 1].filterMap fun n =>
    if (l.take n).length = n ∧ ∀ c ∈ l.take n, isDigitChar c = true then
      some (l.take n, l.drop n)
    else none

/-- Candidate splits for `\.[0-9]{1,3}` at the head of `l`. -/
def dotDigitCands (l : List Char) : List (List Char × List Char) :=
  match l with
  | c :: r =>
    if c = '.' then (digitCands r).map fun p => (c :: p.1, p.2) else []
  | [] => []

/-- Candidate splits for capture 1, `[0-9]{1,3}(?:\.[0-9]{1,3}){3}`,
anchored at the head of `l`, in backtracking preference order. -/
def ipCands (l : List Char) : List (List Char × List Char) :=
  (digitCands l).flatMap fun p1 =>
  (dotDigitCands p1.2).flatMap fun p2 =>
  (dotDigitCands p2.2).flatMap fun p3 =>
  (dotDigitCands p3.2).map fun p4 =>
  (p1.1 ++ p2.1 ++ p3.1 ++ p4.1, p4.2)

/-- Capture 2, `[0-9a-f]{2}([-:][0-9a-f]{2}){5}` (case-insensitive),
anchored at the head of `l`: the matched 17 characters, if any. -/
def macAt (l : List Char) : Option (List Char) :=
  match l with
  | a1 :: b1 :: s1 :: a2 :: b2 :: s2 :: a3 :: b3 :: s3 ::
      a4 :: b4 :: s4 :: a5 :: b5 :: s5 :: a6 :: b6 :: _ =>
    if isHexChar a1 && isHexChar b1 && isSepChar s1 &&
       isHexChar a2 && isHexChar b2 && isSepChar s2 &&
       isHexChar a3 && isHexChar b3 && isSepChar s3 &&
       isHexChar a4 && isHexChar b4 && isSepChar s4 &&
       isHexChar a5 && isHexChar b5 && isSepChar s5 &&
       isHexChar a6 && isHexChar b6 then
      some [a1, b1, s1, a2, b2, s2, a3, b3, s3, a4, b4, s4, a5, b5, s5, a6, b6]
    else none
  | _ => none

/-- The subpattern `.*?` followed by capture 2: the earliest MAC occurrence in `l`
(`.` cannot cross `'\n'`). -/
def macSearch : List Char → Option (List Char)
  | [] => none
  | c :: r =>
    match macAt (c :: r) with
    | some m => some m
    | none => if c = '\n' then none else macSearch r

/-- The whole pattern anchored at the head of `l`: the first IP
candidate (in preference order) whose remainder contains a MAC, paired
with the earliest such MAC. -/
def tryMatchAt (l : List Char) : Option (List Char × List Char) :=
  (ipCands l).findSome? fun p => (macSearch p.2).map fun m => (p.1, m)

/-- Leftmost match: scan start positions left to right. -/
def tryFrom : List Char → Option (List Char × List Char)
  | [] => none
  | c :: r =>
    match tryMatchAt (c :: r) with
    | some m => some m
    | none => tryFrom r

/-- Rust `str::replace('-', ":")` for a single-character pattern and a
single-character replacement. -/
def replaceDash (s : String) : String :=
  ⟨s.data.map fun c => if c = '-' then ':' else c⟩

/-- The device produced from one line, when the regex matches: capture 1
verbatim as `ip`, capture 2 with `-` replaced by `:` as `mac`. -/
def lineDevice (line : String) : Option Device :=
  (tryFrom line.data).map fun p => ⟨⟨p.1⟩, replaceDash ⟨p.2⟩⟩

/-- Rust `parse_arp_output` (lib.rs lines 89–107). -/
def parse_arp_output (output : String) : List Device :=
  (rustLines output).filterMap lineDevice

/-! ### Spec-side token shapes

These definitions follow the wording of the claims (spec §4.1), so that
the claimed matching rule can be compared against the code's regex. -/

/-- A lowercase hex digit, `[0-9a-f]` without `(?i)`. -/
def isLowerHexChar (c : Char) : Bool :=
  isDigitChar c || ('a' ≤ c && c ≤ 'f')

/-- Claim wording: an IPv4-shaped token — four groups of 1–3 digits
separated by periods. -/
def specIpToken (t : List Char) : Prop :=
  ∃ g1 g2 g3 g4 : List Char,
    t = g1 ++ '.' :: (g2 ++ '.' :: (g3 ++ '.' :: g4)) ∧
    ∀ g ∈ [g1, g2, g3, g4],
      (∀ c ∈ g, isDigitChar c = true) ∧ 1 ≤ g.length ∧ g.length ≤ 3

/-- A MAC-shaped token as the code's regex reads it: six two-hex-digit
groups, each of the five separators independently `:` or `-`. -/
def macShapeMixed (t : List Char) : Bool :=
  match t with
  | [a1, b1, s1, a2, b2, s2, a3, b3, s3, a4, b4, s4, a5, b5, s5, a6, b6] =>
    isHexChar a1 && isHexChar b1 && isSepChar s1 &&
    isHexChar a2 && isHexChar b2 && isSepChar s2 &&
    isHexChar a3 && isHexChar b3 && isSepChar s3 &&
    isHexChar a4 && isHexChar b4 && isSepChar s4 &&
    isHexChar a5 && isHexChar b5 && isSepChar s5 &&
    isHexChar a6 && isHexChar b6
  | _ => false

/-- A MAC-shaped token as claim C8 states it: the five separators all
the same character (all `:` or all `-`). -/
def macShapeUniform (t : List Char) : Bool :=
  match t with
  | [a1, b1, s1, a2, b2, s2, a3, b3, s3, a4, b4, s4, a5, b5, s5, a6, b6] =>
    isHexChar a1 && isHexChar b1 && isSepChar s1 &&
    isHexChar a2 && isHexChar b2 && (s2 == s1) &&
    isHexChar a3 && isHexChar b3 && (s3 == s1) &&
    isHexChar a4 && isHexChar b4 && (s4 == s1) &&
    isHexChar a5 && isHexChar b5 && (s5 == s1) &&
    isHexChar a6 && isHexChar b6
  | _ => false

/-- The output MAC shape claim C7 states: `xx:xx:xx:xx:xx:xx` with
lowercase hex digits and colon separators. -/
def macShapeLowerColon (t : List Char) : Bool :=
  match t with
  | [a1, b1, s1, a2, b2, s2, a3, b3, s3, a4, b4, s4, a5, b5, s5, a6, b6] =>
    isLowerHexChar a1 && isLowerHexChar b1 && (s1 == ':') &&
    isLowerHexChar a2 && isLowerHexChar b2 && (s2 == ':') &&
    isLowerHexChar a3 && isLowerHexChar b3 && (s3 == ':') &&
    isLowerHexChar a4 && isLowerHexChar b4 && (s4 == ':') &&
    isLowerHexChar a5 && isLowerHexChar b5 && (s5 == ':') &&
    isLowerHexChar a6 && isLowerHexChar b6
  | _ => false

/-- The output MAC shape the code actually guarantees:
`xx:xx:xx:xx:xx:xx` with hex digits of either case (case preserved
from the source text) and colon separators. -/
def macShapeColon (t : List Char) : Bool :=
  match t with
  | [a1, b1, s1, a2, b2, s2, a3, b3, s3, a4, b4, s4, a5, b5, s5, a6, b6] =>
    isHexChar a1 && isHexChar b1 && (s1 == ':') &&
    isHexChar a2 && isHexChar b2 && (s2 == ':') &&
    isHexChar a3 && isHexChar b3 && (s3 == ':') &&
    isHexChar a4 && isHexChar b4 && (s4 == ':') &&
    isHexChar a5 && isHexChar b5 && (s5 == ':') &&
    isHexChar a6 && isHexChar b6
  | _ => false

/-- The claims' per-line matching rule, for a given MAC-token shape:
the line contains an IPv4-shaped token followed later in the line by a
MAC-shaped token. -/
def specLineRule (macShape : List Char → Bool) (l : List Char) : Prop :=
  ∃ pre ip mid mac post : List Char,
    l = pre ++ ip ++ mid ++ mac ++ post ∧
    specIpToken ip ∧ macShape mac = true

/-- Whether `f` holds on some suffix of `l` (the empty suffix included). -/
def anyTailP (f : List Char → Bool) : List Char → Bool
  | [] => f []
  | c :: r => f (c :: r) || anyTailP f r

/-- Executable form of `specLineRule`, used to decide it on concrete
lines (provided the MAC shape fixes the token length to 17). -/
def specLineRuleB (macShape : List Char → Bool) (l : List Char) : Bool :=
  anyTailP
    (fun suf =>
      (ipCands suf).any fun p =>
        anyTailP (fun suf2 => macShape (suf2.take 17)) p.2)
    l

/-- Rust `PiholeStats` (lib.rs lines 21–28): the statistics payload.
`u64` fields are `Nat`, `f64` is `ℚ`. -/
structure PiholeStats where
  domains_being_blocked : Nat
  dns_queries_today : Nat
  ads_blocked_today : Nat
  ads_percentage_today : ℚ
  status : String
deriving DecidableEq, Repr

/-- Rust `PiholeError` (lib.rs lines 51–65).  Payloads are the formatted
message parts the Rust enum carries. -/
inductive PiholeError where
  | NetworkError (msg : String)
  | InvalidUrl (msg : String)
  | JsonError (msg : String)
  | InvalidHost (msg : String)
  | ServerError (status : Nat)
  | ValidationError (reason : String)
deriving DecidableEq, Repr

/-- Rust `validate_pihole_response` (lib.rs lines 129–146): reject empty
`status` first, then `ads_percentage_today > 100.0`. -/
def validate_pihole_response (stats : PiholeStats) : Except PiholeError Unit :=
  if stats.status = "" then
    .error (.ValidationError "Status field is empty")
  else if 100 < stats.ads_percentage_today then
    .error (.ValidationError "Ads percentage cannot exceed 100%")
  else
    .ok ()

/-! ## JSON (serde_json) model

`get_pihole_stats_internal` deserializes response bodies with
`serde_json::from_str::<PiholeStats>`.  The model parses the body into
a JSON value and then applies the derived-`Deserialize` field logic:
the five struct fields are extracted wherever they occur in the object,
unknown fields are ignored, duplicates of known fields and missing
fields are errors.  Number literals keep their textual parts so that
the integer-versus-float distinction serde_json makes is preserved;
their numeric value is exact (`ℚ`), which agrees with `f64` on every
comparison the code performs. -/

/-- A JSON number literal: sign, integer digits, optional fraction
digits, optional exponent sign and digits. -/
structure JsonNum where
  neg : Bool
  intDigits : List Char
  fracDigits : Option (List Char)
  expNeg : Bool
  expDigits : Option (List Char)
deriving DecidableEq, Repr

/-- A parsed JSON document. -/
inductive Json where
  | null
  | bool (b : Bool)
  | num (n : JsonNum)
  | str (s : String)
  | arr (elems : List Json)
  | obj (fields : List (String × Json))

def digitsToNat (ds : List Char) : Nat :=
  ds.foldl (fun acc c => 10 * acc + (c.toNat - '0'.toNat)) 0

/-- The exact rational value denoted by a JSON number literal. -/
def JsonNum.value (n : JsonNum) : ℚ :=
  let frac := n.fracDigits.getD []
  let mag : ℚ := (digitsToNat n.intDigits : ℚ) + (digitsToNat frac : ℚ) / 10 ^ frac.length
  let e : ℤ :=
    if n.expNeg then -(digitsToNat (n.expDigits.getD []) : ℤ)
    else (digitsToNat (n.expDigits.getD []) : ℤ)
  (if n.neg then -mag else mag) * 10 ^ e

/-- serde `u64` deserialization: only an unsigned integer literal below
`2 ^ 64`; fraction or exponent parts make the value a float, which is
an `invalid type` for `u64`. -/
def Json.asU64 : Json → Except String Nat
  | .num n =>
    if n.neg then .error "invalid value: negative integer for u64"
    else if n.fracDigits ≠ none ∨ n.expDigits ≠ none then
      .error "invalid type: floating point for u64"
    else if 2 ^ 64 ≤ digitsToNat n.intDigits then .error "number out of range"
    else .ok (digitsToNat n.intDigits)
  | _ => .error "invalid type: expected u64"

/-- serde `f64` deserialization: any number literal. -/
def Json.asF64 : Json → Except String ℚ
  | .num n => .ok n.value
  | _ => .error "invalid type: expected f64"

/-- serde `String` deserialization. -/
def Json.asString : Json → Except String String
  | .str s => .ok s
  | _ => .error "invalid type: expected string"

/-- Partial field state while the derived `Deserialize` for
`PiholeStats` visits an object's entries. -/
structure StatsFields where
  domains_being_blocked : Option Nat := none
  dns_queries_today : Option Nat := none
  ads_blocked_today : Option Nat := none
  ads_percentage_today : Option ℚ := none
  status : Option String := none

/-- Visit one object entry: a known key stores its deserialized value
(erroring on a duplicate or a type mismatch); an unknown key is
ignored. -/
def statsVisitField (st : StatsFields) (kv : String × Json) : Except String StatsFields :=
  if kv.1 = "domains_being_blocked" then
    match st.domains_being_blocked with
    | some _ => .error "duplicate field domains_being_blocked"
    | none => kv.2.asU64.map fun v => { st with domains_being_blocked := some v }
  else if kv.1 = "dns_queries_today" then
    match st.dns_queries_today with
    | some _ => .error "duplicate field dns_queries_today"
    | none => kv.2.asU64.map fun v => { st with dns_queries_today := some v }
  else if kv.1 = "ads_blocked_today" then
    match st.ads_blocked_today with
    | some _ => .error "duplicate field ads_blocked_today"
    | none => kv.2.asU64.map fun v => { st with ads_blocked_today := some v }
  else if kv.1 = "ads_percentage_today" then
    match st.ads_percentage_today with
    | some _ => .error "duplicate field ads_percentage_today"
    | none => kv.2.asF64.map fun v => { st with ads_percentage_today := some v }
  else if kv.1 = "status" then
    match st.status with
    | some _ => .error "duplicate field status"
    | none => kv.2.asString.map fun v => { st with status := some v }
  else .ok st

def requireField (name : String) : Option α → Except String α
  | some v => .ok v
  | none => .error ("missing field " ++ name)

/-- The derived `Deserialize` for `PiholeStats`, applied to a JSON
value: must be an object; all five fields must be present. -/
def statsFromJson : Json → Except String PiholeStats
  | .obj fields => do
    let st ← fields.foldlM statsVisitField {}
    let a ← requireField "domains_being_blocked" st.domains_being_blocked
    let b ← requireField "dns_queries_today" st.dns_queries_today
    let c ← requireField "ads_blocked_today" st.ads_blocked_today
    let d ← requireField "ads_percentage_today" st.ads_percentage_today
    let e ← requireField "status" st.status
    .ok ⟨a, b, c, d, e⟩
  | _ => .error "invalid type: expected struct PiholeStats"

/-- JSON whitespace (RFC 8259). -/
def isJsonWs (c : Char) : Bool := c = ' ' || c = '\t' || c = '\n' || c = '\r'

def skipWs (l : List Char) : List Char := l.dropWhile isJsonWs

def takeDigits (l : List Char) : List Char × List Char :=
  (l.takeWhile isDigitChar, l.dropWhile isDigitChar)

/-- Optional fraction part `(\.[0-9]+)?`; `none` means a syntax
error (a dot with no digits). -/
def scanFrac (l : List Char) : Option (Option (List Char) × List Char) :=
  match l with
  | c :: r =>
    if c = '.' then
      let p := takeDigits r
      if p.1 = [] then none else some (some p.1, p.2)
    else some (none, l)
  | [] => some (none, [])

/-- Optional exponent part `([eE][+-]?[0-9]+)?`. -/
def scanExp (l : List Char) : Option (Bool × Option (List Char) × List Char) :=
  match l with
  | c :: r =>
    if c = 'e' ∨ c = 'E' then
      let s : Bool × List Char :=
        match r with
        | d :: r2 => if d = '-' then (true, r2) else if d = '+' then (false, r2) else (false, r)
        | [] => (false, [])
      let p := takeDigits s.2
      if p.1 = [] then none else some (s.1, some p.1, p.2)
    else some (false, none, l)
  | [] => some (false, none, [])

/-- Scan a JSON number literal,
`-? (0 | [1-9][0-9]*) (\.[0-9]+)? ([eE][+-]?[0-9]+)?`. -/
def scanNumber (l : List Char) : Option (JsonNum × List Char) :=
  let s : Bool × List Char :=
    match l with
    | c :: r => if c = '-' then (true, r) else (false, l)
    | [] => (false, [])
  let p := takeDigits s.2
  if p.1 = [] then none
  else if p.1.head? = some '0' ∧ p.1.length ≠ 1 then none
  else
    match scanFrac p.2 with
    | none => none
    | some (frac, l2) =>
      match scanExp l2 with
      | none => none
      | some (eneg, edigits, l3) => some (⟨s.1, p.1, frac, eneg, edigits⟩, l3)

/-- Scan a JSON string body (the text after the opening quote) up to
the closing quote, decoding escapes.  Surrogate escapes are treated as
errors in this model (no claim depends on them). -/
def scanStringBody : Nat → List Char → Option (List Char × List Char)
  | 0, _ => none
  | _, [] => none
  | fuel + 1, c :: r =>
    if c = '"' then some ([], r)
    else if c = '\\' then
      match r with
      | [] => none
      | e :: r2 =>
        if e = '"' ∨ e = '\\' ∨ e = '/' then
          (scanStringBody fuel r2).map fun p => (e :: p.1, p.2)
        else if e = 'b' then (scanStringBody fuel r2).map fun p => ('\x08' :: p.1, p.2)
        else if e = 'f' then (scanStringBody fuel r2).map fun p => ('\x0c' :: p.1, p.2)
        else if e = 'n' then (scanStringBody fuel r2).map fun p => ('\n' :: p.1, p.2)
        else if e = 'r' then (scanStringBody fuel r2).map fun p => ('\r' :: p.1, p.2)
        else if e = 't' then (scanStringBody fuel r2).map fun p => ('\t' :: p.1, p.2)
        else if e = 'u' then
          match r2 with
          | h1 :: h2 :: h3 :: h4 :: r3 =>
            if isHexChar h1 && isHexChar h2 && isHexChar h3 && isHexChar h4 then
              let v := [h1, h2, h3, h4].foldl
                (fun acc h => 16 * acc +
                  (if isDigitChar h then h.toNat - '0'.toNat
                   else if 'a' ≤ h then h.toNat - 'a'.toNat + 10
                   else h.toNat - 'A'.toNat + 10)) 0
              if 0xd800 ≤ v ∧ v ≤ 0xdfff then none
              else (scanStringBody fuel r3).map fun p => (Char.ofNat v :: p.1, p.2)
            else none
          | _ => none
        else none
    else if c.toNat < 0x20 then none
    else (scanStringBody fuel r).map fun p => (c :: p.1, p.2)

/-- The four states of the recursive-descent JSON parser: one value; the
tail of an array after an element; one object member followed by the
members tail; the tail of an object after a member. -/
inductive JMode where
  | value
  | elemsTail
  | membersAt
  | membersTail

/-- The recursive-descent JSON parser, structurally recursive on fuel
(one combined function so that every state reduces definitionally).
Array results are wrapped in `.arr`, object results in `.obj`. -/
def parseJ : Nat → JMode → List Char → Option (Json × List Char)
  | 0, _, _ => none
  | fuel + 1, .value, l =>
    match skipWs l with
    | [] => none
    | c :: r =>
      if c = 'n' then
        if r.take 3 = ['u', 'l', 'l'] then some (.null, r.drop 3) else none
      else if c = 't' then
        if r.take 3 = ['r', 'u', 'e'] then some (.bool true, r.drop 3) else none
      else if c = 'f' then
        if r.take 4 = ['a', 'l', 's', 'e'] then some (.bool false, r.drop 4) else none
      else if c = '"' then
        (scanStringBody (fuel + 1) r).map fun p => (.str ⟨p.1⟩, p.2)
      else if c = '[' then
        match skipWs r with
        | c2 :: r2 =>
          if c2 = ']' then some (.arr [], r2)
          else
            match parseJ fuel .value (c2 :: r2) with
            | none => none
            | some (v, l2) =>
              match parseJ fuel .elemsTail l2 with
              | some (.arr vs, rest) => some (.arr (v :: vs), rest)
              | _ => none
        | [] => none
      else if c = '\x7b' then
        match skipWs r with
        | c2 :: r2 =>
          if c2 = '\x7d' then some (.obj [], r2)
          else
            match parseJ fuel .membersAt (c2 :: r2) with
            | some (.obj kvs, rest) => some (.obj kvs, rest)
            | _ => none
        | [] => none
      else
        (scanNumber (c :: r)).map fun p => (.num p.1, p.2)
  | fuel + 1, .elemsTail, l =>
    match skipWs l with
    | c :: r =>
      if c = ']' then some (.arr [], r)
      else if c = ',' then
        match parseJ fuel .value r with
        | none => none
        | some (v, l2) =>
          match parseJ fuel .elemsTail l2 with
          | some (.arr vs, rest) => some (.arr (v :: vs), rest)
          | _ => none
      else none
    | [] => none
  | fuel + 1, .membersAt, l =>
    match skipWs l with
    | c :: r =>
      if c = '"' then
        match scanStringBody (fuel + 1) r with
        | none => none
        | some (k, l2) =>
          match skipWs l2 with
          | c2 :: r2 =>
            if c2 = ':' then
              match parseJ fuel .value r2 with
              | none => none
              | some (v, l3) =>
                match parseJ fuel .membersTail l3 with
                | some (.obj kvs, rest) => some (.obj ((⟨k⟩, v) :: kvs), rest)
                | _ => none
            else none
          | [] => none
      else none
    | [] => none
  | fuel + 1, .membersTail, l =>
    match skipWs l with
    | c :: r =>
      if c = '\x7d' then some (.obj [], r)
      else if c = ',' then
        match parseJ fuel .membersAt r with
        | some (.obj kvs, rest) => some (.obj kvs, rest)
        | _ => none
      else none
    | [] => none

/-- Parse a complete JSON document (only trailing whitespace may
follow the value), as `serde_json::from_str` requires. -/
def Json.parse (s : String) : Option Json :=
  match parseJ (s.data.length + 1) .value s.data with
  | some (v, rest) => if skipWs rest = [] then some v else none
  | none => none

/-- Rust `serde_json::from_str::<PiholeStats>` as used by the orchestrator
(lib.rs line 326). -/
def parseStats (body : String) : Except String PiholeStats :=
  match Json.parse body with
  | none => .error "invalid JSON"
  | some j => statsFromJson j

/-! ## Host resolution, authentication and the probing orchestrator

The external `url` crate's parser is passed in as
`urlParse : String → Except String Url`; `Url::set_path` /
`Url::set_query` are modelled as the plain component updates they
perform on the ASCII arguments this code passes. -/

/-- The components of a parsed absolute URL that this code reads or
writes. -/
structure Url where
  scheme : String
  host : String
  port : Option Nat
  path : String
  query : Option String
deriving DecidableEq, Repr

def Url.set_path (u : Url) (p : String) : Url := { u with path := p }

def Url.set_query (u : Url) (q : Option String) : Url := { u with query := q }

/-- The host-normalization step duplicated at lib.rs lines 150–162 and
188–194: trim, then prepend `http://` unless an explicit `http://` or
`https://` scheme is already present (which is preserved unchanged). -/
def normalizeHostUrl (host : String) : String :=
  let trimmed_host := rustTrim host
  if strStarts trimmed_host "http://" || strStarts trimmed_host "https://" then
    trimmed_host
  else "http://" ++ trimmed_host

/-- Rust `parse_pihole_urls` (lib.rs lines 149–179): trim, reject empty,
default the scheme to `http://`, parse, and derive the legacy and new
(modern) endpoint URLs. -/
def parse_pihole_urls (urlParse : String → Except String Url) (host : String) :
    Except PiholeError (Url × Url) :=
  if rustTrim host = "" then .error (.InvalidHost "Host cannot be empty")
  else
    match urlParse (normalizeHostUrl host) with
    | .error e => .error (.InvalidUrl e)
    | .ok base_url =>
      let legacy_url := (base_url.set_path "/admin/api.php").set_query (some "summaryRaw")
      let new_url := base_url.set_path "/api/stats/summary"
      .ok (legacy_url, new_url)

/-- The authentication response body as the code consumes it: either
the session id extracted from the parsed session document
(`session.sid`), or a deserialization failure. -/
inductive AuthBody where
  | parsed (sid : String)
  | malformed (msg : String)

/-- One observed authentication exchange: the POST either fails at
transport level or yields a status and a body. -/
inductive AuthOutcome where
  | transportFail (msg : String)
  | response (status : Nat) (body : AuthBody)

/-- reqwest `StatusCode::is_success`: `200 ≤ s ≤ 299`. -/
def isSuccessStatus (status : Nat) : Bool := 200 ≤ status && status ≤ 299

/-- Rust `authenticate_pihole` (lib.rs lines 182–220), returning its result
together with the URLs of the requests it issued, so that "no network
activity" is an equation on the trace.  With no password it returns at
once; otherwise it normalizes the host exactly as `parse_pihole_urls`
does (without the emptiness check), POSTs to `/api/auth`, returns the
session id on a success status, `None` on a non-success status, and
propagates transport and body-deserialization failures as
`NetworkError`. -/
def authenticate_pihole (urlParse : String → Except String Url) (host : String)
    (password : Option String) (net : AuthOutcome) :
    Except PiholeError (Option String) × List Url :=
  match password with
  | none => (.ok none, [])
  | some _ =>
    match urlParse (normalizeHostUrl host) with
    | .error e => (.error (.InvalidUrl e), [])
    | .ok base =>
      let auth_url := base.set_path "/api/auth"
      match net with
      | .transportFail m => (.error (.NetworkError m), [auth_url])
      | .response st body =>
        if isSuccessStatus st then
          match body with
          | .parsed sid => (.ok (some sid), [auth_url])
          | .malformed m => (.error (.NetworkError m), [auth_url])
        else (.ok none, [auth_url])

/-- The credential-resolution step of the orchestrator (lib.rs lines
264–275): invoke the authenticator only when a password was supplied,
and absorb any error it returns into "no credential". -/
def resolveSid (urlParse : String → Except String Url) (host : String)
    (password : Option String) (net : AuthOutcome) : Option String :=
  if password.isSome then
    match (authenticate_pihole urlParse host password net).1 with
    | .ok sid => sid
    | .error _ => none
  else none

/-- One observed probe exchange for a stats endpoint: a transport
failure at send time (lib.rs line 293's `Err` arm); a delivered status
whose body read would fail (`response.text().await?` at lib.rs line
303 — only actually read when the status is a success); or a delivered
status together with the body text. -/
inductive Outcome where
  | transportFail (msg : String)
  | bodyReadFail (status : Nat) (msg : String)
  | response (status : Nat) (body : String)

/-- Whether the body begins, after leading whitespace, with an HTML
document marker (lib.rs line 320; case-sensitive literals). -/
def htmlMarker (body : String) : Bool :=
  strStarts (rustTrimStart body) "<!DOCTYPE" || strStarts (rustTrimStart body) "<html"

/-- Classification of one endpoint attempt. -/
inductive StepResult where
  | skip
  | hard (e : PiholeError)
  | success (stats : PiholeStats)
deriving DecidableEq, Repr

/-- The response gate of the probing loop (lib.rs lines 293–346):
send-time transport failure, non-success status, empty body, HTML
marker and JSON-shape failure all skip to the next endpoint; a
transport failure while reading the body of a success-status response
is propagated by the `?` at line 303 as a hard `NetworkError` (for a
non-success status the body is never read, so the attempt skips); a
parsed body that fails validation is a hard error; otherwise
success. -/
def probeStep (o : Outcome) : StepResult :=
  match o with
  | .transportFail _ => .skip
  | .bodyReadFail status msg =>
    if ¬ isSuccessStatus status then .skip
    else .hard (.NetworkError msg)
  | .response status body =>
    if ¬ isSuccessStatus status then .skip
    else if body = "" then .skip
    else if htmlMarker body then .skip
    else
      match parseStats body with
      | .error _ => .skip
      | .ok stats =>
        match validate_pihole_response stats with
        | .error e => .hard e
        | .ok _ => .success stats

/-- The catch-all failure when every endpoint has been exhausted
(lib.rs lines 350–352). -/
def exhaustedError : PiholeError :=
  .JsonError "Failed to get valid response from any Pi-hole API endpoint. Check if Pi-hole is running and accessible, or if authentication is required."

/-- The probing loop over the remaining endpoint outcomes. -/
def probeGo : List Outcome → Except PiholeError PiholeStats
  | [] => .error exhaustedError
  | o :: rest =>
    match probeStep o with
    | .skip => probeGo rest
    | .hard e => .error e
    | .success s => .ok s

/-- How many endpoints receive a request before the loop stops. -/
def probeCount : List Outcome → Nat
  | [] => 0
  | o :: rest =>
    match probeStep o with
    | .skip => 1 + probeCount rest
    | _ => 1

/-- A stats GET request as issued: target URL and headers. -/
structure Request where
  url : Url
  headers : List (String × String)
deriving DecidableEq, Repr

/-- Build the stats GET request, attaching the session header when a
credential is present (lib.rs lines 286–291). -/
def mkRequest (sid : Option String) (u : Url) : Request :=
  ⟨u, match sid with
      | some session_id => [("X-FTL-SID", session_id)]
      | none => []⟩

instance [DecidableEq ε] [DecidableEq α] : DecidableEq (Except ε α) := fun a b =>
  match a, b with
  | .error x, .error y =>
    if h : x = y then .isTrue (by subst h; rfl)
    else .isFalse (by intro hc; cases hc; exact h rfl)
  | .error _, .ok _ => .isFalse (by intro hc; cases hc)
  | .ok _, .error _ => .isFalse (by intro hc; cases hc)
  | .ok x, .ok y =>
    if h : x = y then .isTrue (by subst h; rfl)
    else .isFalse (by intro hc; cases hc; exact h rfl)

/-- The observable outcome of one orchestrator run: the returned value,
the authentication requests issued, and the stats requests issued. -/
structure RunResult where
  result : Except PiholeError PiholeStats
  authRequests : List Url
  probeRequests : List Request
deriving DecidableEq, Repr

/-- Rust `get_pihole_stats_internal` (lib.rs lines 258–353).  The network is
an explicit input: `authNet` is the authentication exchange's outcome,
`o1` and `o2` the outcomes of probing the new (modern) and the legacy
endpoint respectively; the endpoint order `[new_url, legacy_url]` is
the `endpoints` array of line 278. -/
def get_pihole_stats_internal (urlParse : String → Except String Url) (host : String)
    (password : Option String) (authNet : AuthOutcome) (o1 o2 : Outcome) : RunResult :=
  match parse_pihole_urls urlParse host with
  | .error e => ⟨.error e, [], []⟩
  | .ok (legacy_url, new_url) =>
    let auth := authenticate_pihole urlParse host password authNet
    let sid := resolveSid urlParse host password authNet
    let outcomes := [o1, o2]
    ⟨probeGo outcomes,
     auth.2,
     ([new_url, legacy_url].map (mkRequest sid)).take (probeCount outcomes)⟩

/-- A miniature URL-parser instance for exercising the theorems on
concrete inputs: accepts `http://h` or `https://h` where `h` is
non-empty and free of `/ : ? #`. -/
def demoUrlParse (s : String) : Except String Url :=
  if strStarts s "http://" then
    let h : String := ⟨s.data.drop 7⟩
    if h ≠ "" ∧ ∀ c ∈ h.data, c ≠ '/' ∧ c ≠ ':' ∧ c ≠ '?' ∧ c ≠ '#' then
      .ok ⟨"http", h, none, "", none⟩
    else .error "invalid host"
  else if strStarts s "https://" then
    let h : String := ⟨s.data.drop 8⟩
    if h ≠ "" ∧ ∀ c ∈ h.data, c ≠ '/' ∧ c ≠ ':' ∧ c ≠ '?' ∧ c ≠ '#' then
      .ok ⟨"https", h, none, "", none⟩
    else .error "invalid host"
  else .error "relative URL without a base"

/-- A response body used to exercise the theorems: valid JSON of the
`PiholeStats` shape with `ads_percentage_today = 150.0`. -/
def piholeBody150 : String :=
  "\x7b\"domains_being_blocked\":100000,\"dns_queries_today\":5000,\"ads_blocked_today\":1500,\"ads_percentage_today\":150.0,\"status\":\"enabled\"\x7d"

/-- The JSON document `piholeBody150` parses to. -/
def jsonDoc150 : Json :=
  .obj
    [("domains_being_blocked", .num ⟨false, ['1', '0', '0', '0', '0', '0'], none, false, none⟩),
     ("dns_queries_today", .num ⟨false, ['5', '0', '0', '0'], none, false, none⟩),
     ("ads_blocked_today", .num ⟨false, ['1', '5', '0', '0'], none, false, none⟩),
     ("ads_percentage_today", .num ⟨false, ['1', '5', '0'], some ['0'], false, none⟩),
     ("status", .str "enabled")]

/-- The stats record `piholeBody150` deserializes to. -/
def piholeStats150 : PiholeStats := ⟨100000, 5000, 1500, 150, "enabled"⟩

/-- The base URL `demoUrlParse` yields for `http://192.168.1.100`. -/
def demoBase : Url := ⟨"http", "192.168.1.100", none, "", none⟩

/-- The five field names of `PiholeStats`, in declaration order. -/
def statsKeys : List String :=
  ["domains_being_blocked", "dns_queries_today", "ads_blocked_today",
   "ads_percentage_today", "status"]

/-- A known-field entry's value deserializes at that field's type. -/
def fieldTyped (kv : String × Json) : Prop :=
  ((kv.1 = "domains_being_blocked" ∨ kv.1 = "dns_queries_today" ∨
      kv.1 = "ads_blocked_today") → ∃ v, kv.2.asU64 = .ok v) ∧
  (kv.1 = "ads_percentage_today" → ∃ v, kv.2.asF64 = .ok v) ∧
  (kv.1 = "status" → ∃ v, kv.2.asString = .ok v)

/-- Whether the slot for field name `k` is filled in the visitor
state. -/
def filled (st : StatsFields) (k : String) : Bool :=
  if k = "domains_being_blocked" then st.domains_being_blocked.isSome
  else if k = "dns_queries_today" then st.dns_queries_today.isSome
  else if k = "ads_blocked_today" then st.ads_blocked_today.isSome
  else if k = "ads_percentage_today" then st.ads_percentage_today.isSome
  else if k = "status" then st.status.isSome
  else false

/-- Claim C3: `validate_pihole_response` errors exactly when `status` is
empty or `ads_percentage_today` strictly exceeds `100.0`; the empty
`status` check fires first and each error names the violated
constraint; `ads_percentage_today = 100.0` exactly and all negative
values are accepted (when `status` is non-empty). -/
theorem validate_pihole_response_spec (s : PiholeStats) :
    ((∃ e, validate_pihole_response s = .error e) ↔
      (s.status = "" ∨ 100 < s.ads_percentage_today)) ∧
    (s.status = "" →
      validate_pihole_response s =
        .error (.ValidationError "Status field is empty")) ∧
    (s.status ≠ "" → 100 < s.ads_percentage_today →
      validate_pihole_response s =
        .error (.ValidationError "Ads percentage cannot exceed 100%")) ∧
    (s.status ≠ "" → s.ads_percentage_today = 100 →
      validate_pihole_response s = .ok ()) ∧
    (s.status ≠ "" → s.ads_percentage_today < 0 →
      validate_pihole_response s = .ok ()) := by
  unfold validate_pihole_response
  by_cases hs : s.status = "" <;> by_cases hp : 100 < s.ads_percentage_today <;>
    simp [hs, hp] <;>
    constructor <;> first | linarith | (intro h; linarith)

/-- Witness for C3 at concrete inputs: an empty-status stats value is
rejected with the status message, a `150` percentage with the
percentage message, and `100` exactly and `-5` are accepted. -/
theorem validate_pihole_response_spec_witness :
    validate_pihole_response ⟨1, 2, 3, 30, ""⟩ =
      .error (.ValidationError "Status field is empty") ∧
    validate_pihole_response ⟨1, 2, 3, 150, "enabled"⟩ =
      .error (.ValidationError "Ads percentage cannot exceed 100%") ∧
    validate_pihole_response ⟨1, 2, 3, 100, "enabled"⟩ = .ok () ∧
    validate_pihole_response ⟨1, 2, 3, -5, "enabled"⟩ = .ok () :=
  ⟨(validate_pihole_response_spec _).2.1 rfl,
   (validate_pihole_response_spec _).2.2.1 (by decide) (by norm_num),
   (validate_pihole_response_spec _).2.2.2.1 (by decide) rfl,
   (validate_pihole_response_spec _).2.2.2.2 (by decide) (by norm_num)⟩

/-- Claim C4: `parse_pihole_urls` fails with `InvalidHost` exactly when
the host trims to empty; otherwise it parses the trimmed host with
`http://` prepended unless an explicit `http://`/`https://` scheme is
already present (preserved unchanged), propagates a parse failure as
`InvalidUrl`, and on success returns exactly two candidates sharing the
base's scheme, host and port: the legacy one with path
`/admin/api.php` and query `summaryRaw`, the modern one with path
`/api/stats/summary`. -/
theorem parse_pihole_urls_spec (urlParse : String → Except String Url) (host : String) :
    (rustTrim host = "" →
      parse_pihole_urls urlParse host = .error (.InvalidHost "Host cannot be empty")) ∧
    (rustTrim host ≠ "" →
      ((strStarts (rustTrim host) "http://" || strStarts (rustTrim host) "https://") = true →
        normalizeHostUrl host = rustTrim host) ∧
      ((strStarts (rustTrim host) "http://" || strStarts (rustTrim host) "https://") = false →
        normalizeHostUrl host = "http://" ++ rustTrim host) ∧
      (∀ e, urlParse (normalizeHostUrl host) = .error e →
        parse_pihole_urls urlParse host = .error (.InvalidUrl e)) ∧
      (∀ base, urlParse (normalizeHostUrl host) = .ok base →
        parse_pihole_urls urlParse host =
          .ok (⟨base.scheme, base.host, base.port, "/admin/api.php", some "summaryRaw"⟩,
               ⟨base.scheme, base.host, base.port, "/api/stats/summary", base.query⟩))) := by
  refine ⟨fun h => by simp [parse_pihole_urls, h],
          fun h => ⟨fun hs => by simp [normalizeHostUrl, hs],
                    fun hs => by simp [normalizeHostUrl, hs],
                    fun e he => by simp [parse_pihole_urls, h, he],
                    fun base hb => ?_⟩⟩
  simp [parse_pihole_urls, h, hb, Url.set_path, Url.set_query]

/-- Witness for C4 at concrete inputs: an all-whitespace host fails
with `InvalidHost`; `" 192.168.1.100 "` resolves through the demo URL
parser to the two expected candidates. -/
theorem parse_pihole_urls_spec_witness :
    rustTrim "  " = "" ∧
    parse_pihole_urls demoUrlParse "  " = .error (.InvalidHost "Host cannot be empty") ∧
    rustTrim " 192.168.1.100 " ≠ "" ∧
    demoUrlParse (normalizeHostUrl " 192.168.1.100 ") = .ok demoBase ∧
    parse_pihole_urls demoUrlParse " 192.168.1.100 " =
      .ok (⟨"http", "192.168.1.100", none, "/admin/api.php", some "summaryRaw"⟩,
           ⟨"http", "192.168.1.100", none, "/api/stats/summary", none⟩) := by
  refine ⟨by decide, (parse_pihole_urls_spec demoUrlParse "  ").1 (by decide),
          by decide, by decide, ?_⟩
  exact ((parse_pihole_urls_spec demoUrlParse " 192.168.1.100 ").2 (by decide)).2.2.2
    demoBase (by decide)

/-- Claim C5: the authenticator is best-effort: with no password it
returns "no credential" at once and issues no request (the whole run
issues no authentication request); with a password, a non-success
status yields "no credential" without error; a transport failure, and
every other authenticator error, is absorbed by the orchestrator's
credential-resolution step into "no credential"; and whenever no
credential results, the run's outcome and stats requests are exactly
those of the unauthenticated run, so no authentication outcome ever
surfaces as an error from the stats fetch. -/
theorem authenticate_pihole_best_effort
    (urlParse : String → Except String Url) (host : String) :
    (∀ net, authenticate_pihole urlParse host none net = (.ok none, [])) ∧
    (∀ net o1 o2,
      (get_pihole_stats_internal urlParse host none net o1 o2).authRequests = []) ∧
    (∀ pw st body base, urlParse (normalizeHostUrl host) = .ok base →
      isSuccessStatus st = false →
      (authenticate_pihole urlParse host (some pw) (.response st body)).1 = .ok none) ∧
    (∀ pw m, resolveSid urlParse host (some pw) (.transportFail m) = none) ∧
    (∀ pw net e, (authenticate_pihole urlParse host (some pw) net).1 = .error e →
      resolveSid urlParse host (some pw) net = none) ∧
    (∀ password net o1 o2, resolveSid urlParse host password net = none →
      (get_pihole_stats_internal urlParse host password net o1 o2).result =
        (get_pihole_stats_internal urlParse host none net o1 o2).result ∧
      (get_pihole_stats_internal urlParse host password net o1 o2).probeRequests =
        (get_pihole_stats_internal urlParse host none net o1 o2).probeRequests) := by
  refine ⟨fun net => rfl, fun net o1 o2 => ?_, fun pw st body base hb hst => ?_,
          fun pw m => ?_, fun pw net e he => ?_, fun password net o1 o2 hsid => ?_⟩
  · simp [get_pihole_stats_internal, authenticate_pihole]
    cases parse_pihole_urls urlParse host with
    | error e => rfl
    | ok p => cases p with | mk l m => rfl
  · simp [authenticate_pihole, hb, hst]
  · simp [resolveSid, authenticate_pihole]
    cases h : urlParse (normalizeHostUrl host) with
    | error e => simp
    | ok base => simp
  · simp [resolveSid, he]
  · have hnone : resolveSid urlParse host none net = none := by simp [resolveSid]
    simp only [get_pihole_stats_internal]
    cases parse_pihole_urls urlParse host with
    | error e => exact ⟨rfl, rfl⟩
    | ok p =>
      cases p with
      | mk l m => simp [hsid, hnone]

/-- Witness for C5 at concrete inputs: no password means no request; a
401 yields no credential; a transport failure is absorbed into no
credential and the run equals the unauthenticated run. -/
theorem authenticate_pihole_best_effort_witness :
    authenticate_pihole demoUrlParse "192.168.1.100" none (.transportFail "boom") =
      (.ok none, []) ∧
    demoUrlParse (normalizeHostUrl "192.168.1.100") = .ok demoBase ∧
    isSuccessStatus 401 = false ∧
    (authenticate_pihole demoUrlParse "192.168.1.100" (some "pw")
      (.response 401 (.parsed "sid1"))).1 = .ok none ∧
    (authenticate_pihole demoUrlParse "192.168.1.100" (some "pw")
      (.transportFail "boom")).1 = .error (.NetworkError "boom") ∧
    resolveSid demoUrlParse "192.168.1.100" (some "pw") (.transportFail "boom") = none ∧
    (get_pihole_stats_internal demoUrlParse "192.168.1.100" (some "pw")
      (.transportFail "boom") (.response 500 "") (.transportFail "x")).result =
      (get_pihole_stats_internal demoUrlParse "192.168.1.100" none
        (.transportFail "boom") (.response 500 "") (.transportFail "x")).result := by
  refine ⟨(authenticate_pihole_best_effort demoUrlParse "192.168.1.100").1 _,
          by decide, by decide,
          (authenticate_pihole_best_effort demoUrlParse "192.168.1.100").2.2.1
            "pw" 401 (.parsed "sid1") demoBase (by decide) (by decide),
          by decide,
          (authenticate_pihole_best_effort demoUrlParse "192.168.1.100").2.2.2.1 "pw" "boom",
          ((authenticate_pihole_best_effort demoUrlParse "192.168.1.100").2.2.2.2.2
            (some "pw") (.transportFail "boom") (.response 500 "") (.transportFail "x")
            (by decide)).1⟩

/-- Claim C1: when an endpoint's response passes the status / emptiness /
HTML gates, parses as the Stats shape, and the parsed value fails the
validator, the orchestrator returns that `ValidationError` (which every
validator failure is) as its result regardless of the other endpoint's
outcome, and only the first endpoint received a request. -/
theorem get_pihole_stats_validation_short_circuit
    (urlParse : String → Except String Url) (host : String) (password : Option String)
    (authNet : AuthOutcome) (legacy modern : Url)
    (hurls : parse_pihole_urls urlParse host = .ok (legacy, modern))
    (st : Nat) (body : String) (hst : isSuccessStatus st = true) (hne : body ≠ "")
    (hhtml : htmlMarker body = false) (stats : PiholeStats) (e : PiholeError)
    (hparse : parseStats body = .ok stats)
    (hval : validate_pihole_response stats = .error e) (o2 : Outcome) :
    (get_pihole_stats_internal urlParse host password authNet
        (.response st body) o2).result = .error e ∧
    (get_pihole_stats_internal urlParse host password authNet
        (.response st body) o2).probeRequests =
      [mkRequest (resolveSid urlParse host password authNet) modern] ∧
    (∃ reason, e = .ValidationError reason) := by
  have hstep : probeStep (.response st body) = .hard e := by
    simp [probeStep, hst, hne, hhtml, hparse, hval]
  refine ⟨?_, ?_, ?_⟩
  · simp [get_pihole_stats_internal, hurls, probeGo, hstep]
  · simp [get_pihole_stats_internal, hurls, probeCount, hstep]
  · unfold validate_pihole_response at hval
    split_ifs at hval with h1 h2
    · exact ⟨"Status field is empty", by injection hval with h; exact h.symm⟩
    · exact ⟨"Ads percentage cannot exceed 100%", by injection hval with h; exact h.symm⟩

set_option maxRecDepth 10000 in
/-- Witness for C1: a 200 response whose body is valid Stats-shaped
JSON with `ads_percentage_today = 150.0` makes the run fail with that
`ValidationError` and probe only the modern endpoint. -/
theorem get_pihole_stats_validation_short_circuit_witness :
    parse_pihole_urls demoUrlParse "192.168.1.100" =
      .ok (⟨"http", "192.168.1.100", none, "/admin/api.php", some "summaryRaw"⟩,
           ⟨"http", "192.168.1.100", none, "/api/stats/summary", none⟩) ∧
    isSuccessStatus 200 = true ∧
    piholeBody150 ≠ "" ∧
    htmlMarker piholeBody150 = false ∧
    parseStats piholeBody150 = .ok piholeStats150 ∧
    validate_pihole_response piholeStats150 =
      .error (.ValidationError "Ads percentage cannot exceed 100%") ∧
    (get_pihole_stats_internal demoUrlParse "192.168.1.100" none (.transportFail "na")
        (.response 200 piholeBody150) (.transportFail "x")).result =
      .error (.ValidationError "Ads percentage cannot exceed 100%") ∧
    (get_pihole_stats_internal demoUrlParse "192.168.1.100" none (.transportFail "na")
        (.response 200 piholeBody150) (.transportFail "x")).probeRequests =
      [mkRequest none ⟨"http", "192.168.1.100", none, "/api/stats/summary", none⟩] := by
  have hj : Json.parse piholeBody150 = some jsonDoc150 := by rfl
  have hparse : parseStats piholeBody150 = .ok piholeStats150 := by
    simp [parseStats, hj, statsFromJson, jsonDoc150, statsVisitField, Json.asU64,
          Json.asF64, Json.asString, requireField, JsonNum.value, digitsToNat,
          List.foldlM, Except.map, Except.bind, bind, pure, Except.pure, piholeStats150]
  have hval : validate_pihole_response piholeStats150 =
      .error (.ValidationError "Ads percentage cannot exceed 100%") := by
    simp [validate_pihole_response, piholeStats150]
    norm_num
  have happ := get_pihole_stats_validation_short_circuit demoUrlParse "192.168.1.100"
    none (.transportFail "na")
    ⟨"http", "192.168.1.100", none, "/admin/api.php", some "summaryRaw"⟩
    ⟨"http", "192.168.1.100", none, "/api/stats/summary", none⟩
    (by decide) 200 piholeBody150 (by decide) (by decide) (by decide)
    piholeStats150 _ hparse hval (.transportFail "x")
  exact ⟨by decide, by decide, by decide, by decide, hparse, hval, happ.1,
         by simpa [resolveSid, authenticate_pihole] using happ.2.1⟩

/-- Counterexample to C2 as stated: a transport failure while reading
the body of a 200 response (the `?` on `response.text().await` at
lib.rs line 303) is propagated as that raw `NetworkError` — the run
returns a raw transport error from an individual attempt and issues
only the one (modern) probe request, never advancing to the legacy
endpoint and never producing the catch-all `JsonError`. -/
theorem body_read_failure_counterexample :
    probeStep (.bodyReadFail 200 "connection reset by peer") =
      .hard (.NetworkError "connection reset by peer") ∧
    (get_pihole_stats_internal demoUrlParse "192.168.1.100" none (.transportFail "na")
        (.bodyReadFail 200 "connection reset by peer") (.response 500 "")).result =
      .error (.NetworkError "connection reset by peer") ∧
    (get_pihole_stats_internal demoUrlParse "192.168.1.100" none (.transportFail "na")
        (.bodyReadFail 200 "connection reset by peer") (.response 500 "")).probeRequests =
      [mkRequest none ⟨"http", "192.168.1.100", none, "/api/stats/summary", none⟩] := by
  decide

/-- Claim C2 as amended: the orchestrator probes the modern endpoint
(`/api/stats/summary`) and then the legacy one (`/admin/api.php`,
query `summaryRaw`), never more than two attempts, the issued requests
being exactly the prefix of that two-request sequence the loop walked;
every skip-worthy failure — send-time transport failure, non-success
status, empty body, HTML-marker body, Stats-shape parse failure, and a
body-read failure on a non-success status (whose body is never read) —
makes the attempt a skip, and a skip advances to the next endpoint; a
transport failure while reading the body of a success-status response
is instead propagated immediately as that raw `NetworkError`, without
attempting the remaining endpoint; and when both endpoints skip, the
result is the fixed catch-all `JsonError`, not any individual
attempt's error. -/
theorem get_pihole_stats_probe_order_and_exhaustion
    (urlParse : String → Except String Url) (host : String) (password : Option String)
    (authNet : AuthOutcome) (o1 o2 : Outcome) (legacy modern : Url)
    (hurls : parse_pihole_urls urlParse host = .ok (legacy, modern)) :
    modern.path = "/api/stats/summary" ∧
    legacy.path = "/admin/api.php" ∧
    legacy.query = some "summaryRaw" ∧
    (get_pihole_stats_internal urlParse host password authNet o1 o2).probeRequests =
      [mkRequest (resolveSid urlParse host password authNet) modern,
       mkRequest (resolveSid urlParse host password authNet) legacy].take
        (probeCount [o1, o2]) ∧
    probeCount [o1, o2] ≤ 2 ∧
    (∀ m, probeStep (.transportFail m) = .skip) ∧
    (∀ st b, isSuccessStatus st = false → probeStep (.response st b) = .skip) ∧
    (∀ st, probeStep (.response st "") = .skip) ∧
    (∀ st b, htmlMarker b = true → probeStep (.response st b) = .skip) ∧
    (∀ st b m, parseStats b = .error m → probeStep (.response st b) = .skip) ∧
    (∀ st m, isSuccessStatus st = false → probeStep (.bodyReadFail st m) = .skip) ∧
    (∀ st m, isSuccessStatus st = true →
      probeStep (.bodyReadFail st m) = .hard (.NetworkError m)) ∧
    (∀ o rest, probeStep o = .skip → probeGo (o :: rest) = probeGo rest) ∧
    (probeStep o1 = .skip → probeStep o2 = .skip →
      (get_pihole_stats_internal urlParse host password authNet o1 o2).result =
        .error exhaustedError) ∧
    (∀ st m, isSuccessStatus st = true →
      (get_pihole_stats_internal urlParse host password authNet
          (.bodyReadFail st m) o2).result = .error (.NetworkError m) ∧
      (get_pihole_stats_internal urlParse host password authNet
          (.bodyReadFail st m) o2).probeRequests =
        [mkRequest (resolveSid urlParse host password authNet) modern]) ∧
    exhaustedError = .JsonError
      "Failed to get valid response from any Pi-hole API endpoint. Check if Pi-hole is running and accessible, or if authentication is required." := by
  have hcomp : legacy.path = "/admin/api.php" ∧ legacy.query = some "summaryRaw" ∧
      modern.path = "/api/stats/summary" := by
    unfold parse_pihole_urls at hurls
    split at hurls
    · cases hurls
    · cases h2 : urlParse (normalizeHostUrl host) with
      | error e => rw [h2] at hurls; cases hurls
      | ok base =>
        rw [h2] at hurls
        injection hurls with h
        rw [Prod.mk.injEq] at h
        refine ⟨by rw [← h.1]; rfl, by rw [← h.1]; rfl, by rw [← h.2]; rfl⟩
  refine ⟨hcomp.2.2, hcomp.1, hcomp.2.1, ?_, ?_, fun m => rfl, ?_, ?_, ?_, ?_,
          ?_, ?_, ?_, ?_, ?_, rfl⟩
  · simp [get_pihole_stats_internal, hurls]
  · rcases h1 : probeStep o1 <;> rcases h2 : probeStep o2 <;>
      simp [probeCount, h1, h2]
  · intro st b h; simp [probeStep, h]
  · intro st
    by_cases hs : isSuccessStatus st <;> simp [probeStep, hs]
  · intro st b h
    by_cases hs : isSuccessStatus st
    · by_cases hb : b = ""
      · subst hb; exact absurd h (by decide)
      · simp [probeStep, hs, hb, h]
    · simp [probeStep, hs]
  · intro st b m h
    by_cases hs : isSuccessStatus st
    · by_cases hb : b = ""
      · simp [probeStep, hs, hb]
      · by_cases hh : htmlMarker b
        · simp [probeStep, hs, hb, hh]
        · simp [probeStep, hs, hb, hh, h]
    · simp [probeStep, hs]
  · intro st m h; simp [probeStep, h]
  · intro st m h; simp [probeStep, h]
  · intro o rest h; simp [probeGo, h]
  · intro h1 h2; simp [get_pihole_stats_internal, hurls, probeGo, h1, h2]
  · intro st m h
    have hstep : probeStep (.bodyReadFail st m) = .hard (.NetworkError m) := by
      simp [probeStep, h]
    exact ⟨by simp [get_pihole_stats_internal, hurls, probeGo, hstep],
           by simp [get_pihole_stats_internal, hurls, probeCount, hstep]⟩

/-- Witness for C2 (amended): with the modern endpoint answering 500
and the legacy one 404, both attempts skip, both endpoints are probed
in order and the run fails with the catch-all `JsonError`; a body-read
failure skips on a 404 but is a hard `NetworkError` on a 201, and a
success-status body-read failure on the modern endpoint makes the run
return that `NetworkError` after a single probe request. -/
theorem get_pihole_stats_probe_order_and_exhaustion_witness :
    parse_pihole_urls demoUrlParse "192.168.1.100" =
      .ok (⟨"http", "192.168.1.100", none, "/admin/api.php", some "summaryRaw"⟩,
           ⟨"http", "192.168.1.100", none, "/api/stats/summary", none⟩) ∧
    probeStep (.response 500 "oops") = .skip ∧
    probeStep (.response 404 "nope") = .skip ∧
    (get_pihole_stats_internal demoUrlParse "192.168.1.100" none (.transportFail "na")
        (.response 500 "oops") (.response 404 "nope")).probeRequests =
      [mkRequest none ⟨"http", "192.168.1.100", none, "/api/stats/summary", none⟩,
       mkRequest none ⟨"http", "192.168.1.100", none, "/admin/api.php", some "summaryRaw"⟩] ∧
    (get_pihole_stats_internal demoUrlParse "192.168.1.100" none (.transportFail "na")
        (.response 500 "oops") (.response 404 "nope")).result = .error exhaustedError ∧
    probeStep (.bodyReadFail 404 "timed out") = .skip ∧
    probeStep (.bodyReadFail 201 "timed out") = .hard (.NetworkError "timed out") ∧
    (get_pihole_stats_internal demoUrlParse "192.168.1.100" none (.transportFail "na")
        (.bodyReadFail 201 "timed out") (.response 404 "nope")).result =
      .error (.NetworkError "timed out") ∧
    (get_pihole_stats_internal demoUrlParse "192.168.1.100" none (.transportFail "na")
        (.bodyReadFail 201 "timed out") (.response 404 "nope")).probeRequests =
      [mkRequest none ⟨"http", "192.168.1.100", none, "/api/stats/summary", none⟩] := by
  have happ := get_pihole_stats_probe_order_and_exhaustion demoUrlParse "192.168.1.100"
    none (.transportFail "na") (.response 500 "oops") (.response 404 "nope")
    ⟨"http", "192.168.1.100", none, "/admin/api.php", some "summaryRaw"⟩
    ⟨"http", "192.168.1.100", none, "/api/stats/summary", none⟩ (by decide)
  have hrun := happ.2.2.2.2.2.2.2.2.2.2.2.2.2.2.1 201 "timed out" (by decide)
  have hsid : resolveSid demoUrlParse "192.168.1.100" none (.transportFail "na") = none := rfl
  refine ⟨by decide, by decide, by decide, ?_, ?_,
          happ.2.2.2.2.2.2.2.2.2.2.1 404 "timed out" (by decide),
          happ.2.2.2.2.2.2.2.2.2.2.2.1 201 "timed out" (by decide),
          hrun.1, ?_⟩
  · have h4 := happ.2.2.2.1
    have hc : probeCount [Outcome.response 500 "oops", Outcome.response 404 "nope"] = 2 := by
      decide
    rw [hc, hsid] at h4
    simpa using h4
  · exact happ.2.2.2.2.2.2.2.2.2.2.2.2.2.1 (by decide) (by decide)
  · have h2 := hrun.2
    rw [hsid] at h2
    exact h2

/-- Counterexample to C6 as stated: in a run that obtained the session
credential `"sid1"`, every stats request carries the header named
`X-FTL-SID` — no request carries a header named
`X-Session-Credential`. -/
theorem session_header_name_counterexample :
    resolveSid demoUrlParse "192.168.1.100" (some "pw")
      (.response 200 (.parsed "sid1")) = some "sid1" ∧
    (get_pihole_stats_internal demoUrlParse "192.168.1.100" (some "pw")
        (.response 200 (.parsed "sid1")) (.response 500 "") (.response 500 "")).probeRequests.map
      Request.headers = [[("X-FTL-SID", "sid1")], [("X-FTL-SID", "sid1")]] ∧
    ((get_pihole_stats_internal demoUrlParse "192.168.1.100" (some "pw")
        (.response 200 (.parsed "sid1")) (.response 500 "") (.response 500 "")).probeRequests.all
      fun req => req.headers.all fun kv => kv.1 ≠ "X-Session-Credential") = true := by
  decide

/-- Claim C6 as amended: whenever a session credential was obtained, every
stats GET request the orchestrator issues carries it as the single
header named `X-FTL-SID`. -/
theorem session_header_is_xftlsid
    (urlParse : String → Except String Url) (host : String) (password : Option String)
    (authNet : AuthOutcome) (o1 o2 : Outcome) (id : String)
    (h : resolveSid urlParse host password authNet = some id) :
    ∀ req ∈ (get_pihole_stats_internal urlParse host password authNet o1 o2).probeRequests,
      req.headers = [("X-FTL-SID", id)] := by
  intro req hreq
  unfold get_pihole_stats_internal at hreq
  cases hp : parse_pihole_urls urlParse host with
  | error e => rw [hp] at hreq; simp at hreq
  | ok p =>
    cases p with
    | mk l m =>
      rw [hp] at hreq
      simp only at hreq
      have hreq' := List.mem_of_mem_take hreq
      rw [h] at hreq'
      rcases List.mem_map.mp hreq' with ⟨u, _, rfl⟩
      rfl

/-- Witness for C6 (amended): a concrete run that obtained credential
`"sid1"` has its modern-endpoint request carrying exactly the
`X-FTL-SID` header. -/
theorem session_header_is_xftlsid_witness :
    resolveSid demoUrlParse "192.168.1.100" (some "pw")
      (.response 200 (.parsed "sid1")) = some "sid1" ∧
    (⟨⟨"http", "192.168.1.100", none, "/api/stats/summary", none⟩,
      [("X-FTL-SID", "sid1")]⟩ : Request) ∈
      (get_pihole_stats_internal demoUrlParse "192.168.1.100" (some "pw")
        (.response 200 (.parsed "sid1")) (.response 500 "") (.response 500 "")).probeRequests ∧
    (⟨⟨"http", "192.168.1.100", none, "/api/stats/summary", none⟩,
      [("X-FTL-SID", "sid1")]⟩ : Request).headers = [("X-FTL-SID", "sid1")] :=
  ⟨by decide, by decide,
   session_header_is_xftlsid demoUrlParse "192.168.1.100" (some "pw")
     (.response 200 (.parsed "sid1")) (.response 500 "") (.response 500 "") "sid1"
     (by decide) _ (by decide)⟩

theorem statsVisitField_unknown (st : StatsFields) (kv : String × Json)
    (h : kv.1 ∉ statsKeys) : statsVisitField st kv = .ok st := by
  simp [statsKeys] at h
  obtain ⟨h1, h2, h3, h4, h5⟩ := h
  simp [statsVisitField, h1, h2, h3, h4, h5]

theorem statsVisitField_known (st : StatsFields) (k₀ : String) (v₀ : Json)
    (hmem : k₀ ∈ statsKeys) (hfill : filled st k₀ = false) (htyp : fieldTyped (k₀, v₀)) :
    ∃ st₂, statsVisitField st (k₀, v₀) = .ok st₂ ∧
      ∀ k, filled st₂ k = (filled st k || decide (k = k₀)) := by
  simp [statsKeys] at hmem
  rcases hmem with h | h | h | h | h <;> subst h
  · obtain ⟨v, hv⟩ := htyp.1 (Or.inl rfl)
    have hnone : st.domains_being_blocked = none := by
      cases hdb : st.domains_being_blocked with
      | none => rfl
      | some x => rw [show filled st "domains_being_blocked" =
          st.domains_being_blocked.isSome from rfl, hdb] at hfill; simp at hfill
    refine ⟨{ st with domains_being_blocked := some v }, by simp [statsVisitField, hnone, hv, Except.map], fun k => ?_⟩
    unfold filled
    split_ifs <;> simp_all
  · obtain ⟨v, hv⟩ := htyp.1 (Or.inr (Or.inl rfl))
    have hnone : st.dns_queries_today = none := by
      cases hdb : st.dns_queries_today with
      | none => rfl
      | some x => rw [show filled st "dns_queries_today" =
          st.dns_queries_today.isSome from rfl, hdb] at hfill; simp at hfill
    refine ⟨{ st with dns_queries_today := some v }, by simp [statsVisitField, hnone, hv, Except.map], fun k => ?_⟩
    unfold filled
    split_ifs <;> simp_all
  · obtain ⟨v, hv⟩ := htyp.1 (Or.inr (Or.inr rfl))
    have hnone : st.ads_blocked_today = none := by
      cases hdb : st.ads_blocked_today with
      | none => rfl
      | some x => rw [show filled st "ads_blocked_today" =
          st.ads_blocked_today.isSome from rfl, hdb] at hfill; simp at hfill
    refine ⟨{ st with ads_blocked_today := some v }, by simp [statsVisitField, hnone, hv, Except.map], fun k => ?_⟩
    unfold filled
    split_ifs <;> simp_all
  · obtain ⟨v, hv⟩ := htyp.2.1 rfl
    have hnone : st.ads_percentage_today = none := by
      cases hdb : st.ads_percentage_today with
      | none => rfl
      | some x => rw [show filled st "ads_percentage_today" =
          st.ads_percentage_today.isSome from rfl, hdb] at hfill; simp at hfill
    refine ⟨{ st with ads_percentage_today := some v }, by simp [statsVisitField, hnone, hv, Except.map], fun k => ?_⟩
    unfold filled
    split_ifs <;> simp_all
  · obtain ⟨v, hv⟩ := htyp.2.2 rfl
    have hnone : st.status = none := by
      cases hdb : st.status with
      | none => rfl
      | some x => rw [show filled st "status" = st.status.isSome from rfl, hdb] at hfill
                  simp at hfill
    refine ⟨{ st with status := some v }, by simp [statsVisitField, hnone, hv, Except.map], fun k => ?_⟩
    unfold filled
    split_ifs <;> simp_all

theorem foldlM_stats_success (fields : List (String × Json)) :
    ∀ st : StatsFields,
      (fields.map Prod.fst).Nodup →
      (∀ kv ∈ fields, kv.1 ∈ statsKeys → filled st kv.1 = false ∧ fieldTyped kv) →
      ∃ st', List.foldlM statsVisitField st fields = .ok st' ∧
        ∀ k ∈ statsKeys,
          filled st' k = (filled st k || decide (k ∈ fields.map Prod.fst)) := by
  induction fields with
  | nil => exact fun st _ _ => ⟨st, rfl, fun k _ => by simp⟩
  | cons kv rest ih =>
    intro st hnd h
    obtain ⟨hnotin, hnd'⟩ : kv.1 ∉ rest.map Prod.fst ∧ (rest.map Prod.fst).Nodup := by
      simpa [List.nodup_cons] using hnd
    by_cases hk : kv.1 ∈ statsKeys
    · obtain ⟨hfill, htyp⟩ := h kv (List.mem_cons_self kv rest) hk
      obtain ⟨st₂, hstep, hfilled⟩ := statsVisitField_known st kv.1 kv.2 hk hfill htyp
      have hstep' : statsVisitField st kv = .ok st₂ := by rwa [Prod.mk.eta] at hstep
      obtain ⟨st', hfold, hres⟩ := ih st₂ hnd' (fun kv' hkv' hk' => by
        refine ⟨?_, (h kv' (List.mem_cons_of_mem _ hkv') hk').2⟩
        have hne : kv'.1 ≠ kv.1 := by
          intro he
          exact hnotin (he ▸ List.mem_map_of_mem Prod.fst hkv')
        rw [hfilled kv'.1]
        simp [hne, (h kv' (List.mem_cons_of_mem _ hkv') hk').1])
      refine ⟨st', ?_, ?_⟩
      · rw [List.foldlM_cons, hstep']
        simpa [bind, Except.bind] using hfold
      · intro k hkmem
        rw [hres k hkmem, hfilled k]
        simp only [List.mem_cons, Bool.or_assoc]
        by_cases he : k = kv.1
        · simp [he]
        · have hb : (k == kv.1) = false := beq_eq_false_iff_ne.mpr he
          simp [he, hb]
    · have hstep := statsVisitField_unknown st kv hk
      obtain ⟨st', hfold, hres⟩ :=
        ih st hnd' (fun kv' hkv' hk' => h kv' (List.mem_cons_of_mem _ hkv') hk')
      refine ⟨st', ?_, ?_⟩
      · rw [List.foldlM_cons, hstep]
        simpa [bind, Except.bind] using hfold
      · intro k hkmem
        rw [hres k hkmem]
        have hne : k ≠ kv.1 := fun he => hk (he ▸ hkmem)
        have hb : (k == kv.1) = false := beq_eq_false_iff_ne.mpr hne
        simp [List.mem_cons, hne, hb]


theorem statsVisitField_ok_frame (st st₂ : StatsFields) (kv : String × Json)
    (h : statsVisitField st kv = .ok st₂) (k : String) (hk : k ≠ kv.1) :
    filled st₂ k = filled st k := by
  unfold statsVisitField at h
  split_ifs at h with h1 h2 h3 h4 h5
  · rw [h1] at hk
    cases hdb : st.domains_being_blocked <;> rw [hdb] at h
    · cases hu : kv.2.asU64 <;> rw [hu] at h <;> simp [Except.map] at h
      subst h; unfold filled; split_ifs <;> simp_all
    · cases h
  · rw [h2] at hk
    cases hdb : st.dns_queries_today <;> rw [hdb] at h
    · cases hu : kv.2.asU64 <;> rw [hu] at h <;> simp [Except.map] at h
      subst h; unfold filled; split_ifs <;> simp_all
    · cases h
  · rw [h3] at hk
    cases hdb : st.ads_blocked_today <;> rw [hdb] at h
    · cases hu : kv.2.asU64 <;> rw [hu] at h <;> simp [Except.map] at h
      subst h; unfold filled; split_ifs <;> simp_all
    · cases h
  · rw [h4] at hk
    cases hdb : st.ads_percentage_today <;> rw [hdb] at h
    · cases hu : kv.2.asF64 <;> rw [hu] at h <;> simp [Except.map] at h
      subst h; unfold filled; split_ifs <;> simp_all
    · cases h
  · rw [h5] at hk
    cases hdb : st.status <;> rw [hdb] at h
    · cases hu : kv.2.asString <;> rw [hu] at h <;> simp [Except.map] at h
      subst h; unfold filled; split_ifs <;> simp_all
    · cases h
  · injection h with h
    subst h; rfl

theorem foldlM_stats_filled_src (fields : List (String × Json)) :
    ∀ st st' : StatsFields, List.foldlM statsVisitField st fields = .ok st' →
      ∀ k, filled st' k = true → filled st k = true ∨ k ∈ fields.map Prod.fst := by
  induction fields with
  | nil =>
    intro st st' h k hf
    simp only [List.foldlM_nil] at h
    injection h with h
    subst h
    exact Or.inl hf
  | cons kv rest ih =>
    intro st st' h k hf
    rw [List.foldlM_cons] at h
    cases hstep : statsVisitField st kv with
    | error e => rw [hstep] at h; simp [bind, Except.bind] at h
    | ok st₂ =>
      rw [hstep] at h
      simp only [bind, Except.bind] at h
      rcases ih st₂ st' h k hf with h2 | h2
      · by_cases he : k = kv.1
        · exact Or.inr (by simp [he])
        · exact Or.inl (by rw [← statsVisitField_ok_frame st st₂ kv hstep k he]; exact h2)
      · exact Or.inr (by simp [h2])

theorem statsFromJson_ok_filled (fields : List (String × Json)) (s : PiholeStats)
    (st' : StatsFields) (hfold : List.foldlM statsVisitField {} fields = .ok st')
    (h : statsFromJson (.obj fields) = .ok s) :
    ∀ k ∈ statsKeys, filled st' k = true := by
  simp only [statsFromJson] at h
  rw [hfold] at h
  simp only [bind, Except.bind] at h
  cases h1 : st'.domains_being_blocked <;> rw [h1] at h
  · simp [requireField] at h
  · cases h2 : st'.dns_queries_today <;> rw [h2] at h
    · simp [requireField] at h
    · cases h3 : st'.ads_blocked_today <;> rw [h3] at h
      · simp [requireField] at h
      · cases h4 : st'.ads_percentage_today <;> rw [h4] at h
        · simp [requireField] at h
        · cases h5 : st'.status <;> rw [h5] at h
          · simp [requireField] at h
          · intro k hk
            simp [statsKeys] at hk
            rcases hk with rfl | rfl | rfl | rfl | rfl <;>
              simp [filled, h1, h2, h3, h4, h5]

/-- Claim C10: the Stats-shape parse succeeds on any JSON object that has
the five expected fields with values of the expected types, whatever
additional unknown fields are present (they are ignored); it fails on
any JSON object missing at least one of the five; and a body whose
document is such a failing object makes the probe attempt a skip, not
an error. -/
theorem stats_shape_parse_spec (fields : List (String × Json)) :
    ((fields.map Prod.fst).Nodup →
      (∀ k ∈ statsKeys, k ∈ fields.map Prod.fst) →
      (∀ kv ∈ fields, kv.1 ∈ statsKeys → fieldTyped kv) →
      ∃ s, statsFromJson (.obj fields) = .ok s) ∧
    (∀ k ∈ statsKeys, k ∉ fields.map Prod.fst →
      ∃ m, statsFromJson (.obj fields) = .error m) ∧
    (∀ st body, isSuccessStatus st = true → body ≠ "" → htmlMarker body = false →
      Json.parse body = some (.obj fields) →
      (∃ m, statsFromJson (.obj fields) = .error m) →
      probeStep (.response st body) = .skip) := by
  refine ⟨?_, ?_, ?_⟩
  · intro hnd hpres htyp
    obtain ⟨st', hfold, hres⟩ := foldlM_stats_success fields {} hnd (fun kv hkv hk =>
      ⟨by unfold filled; split_ifs <;> rfl, htyp kv hkv hk⟩)
    have hfill : ∀ k ∈ statsKeys, filled st' k = true := fun k hk => by
      rw [hres k hk]; simp [hpres k hk]
    obtain ⟨a, h1⟩ : ∃ a, st'.domains_being_blocked = some a := by
      have := hfill "domains_being_blocked" (by simp [statsKeys])
      simpa [filled, Option.isSome_iff_exists] using this
    obtain ⟨b, h2⟩ : ∃ b, st'.dns_queries_today = some b := by
      have := hfill "dns_queries_today" (by simp [statsKeys])
      simpa [filled, Option.isSome_iff_exists] using this
    obtain ⟨c, h3⟩ : ∃ c, st'.ads_blocked_today = some c := by
      have := hfill "ads_blocked_today" (by simp [statsKeys])
      simpa [filled, Option.isSome_iff_exists] using this
    obtain ⟨d, h4⟩ : ∃ d, st'.ads_percentage_today = some d := by
      have := hfill "ads_percentage_today" (by simp [statsKeys])
      simpa [filled, Option.isSome_iff_exists] using this
    obtain ⟨e, h5⟩ : ∃ e, st'.status = some e := by
      have := hfill "status" (by simp [statsKeys])
      simpa [filled, Option.isSome_iff_exists] using this
    exact ⟨⟨a, b, c, d, e⟩,
      by simp [statsFromJson, hfold, bind, Except.bind, requireField, h1, h2, h3, h4, h5]⟩
  · intro k hk hnot
    cases hres : statsFromJson (.obj fields) with
    | error m => exact ⟨m, rfl⟩
    | ok s =>
      exfalso
      cases hfold : List.foldlM statsVisitField ({} : StatsFields) fields with
      | error e =>
        have : statsFromJson (.obj fields) = .error e := by
          simp [statsFromJson, hfold, bind, Except.bind]
        rw [this] at hres; cases hres
      | ok st' =>
        have hfilled := statsFromJson_ok_filled fields s st' hfold hres k hk
        rcases foldlM_stats_filled_src fields {} st' hfold k hfilled with hc | hc
        · unfold filled at hc; split_ifs at hc <;> simp at hc
        · exact hnot hc
  · intro st body hst hne hhtml hp hm
    obtain ⟨m, hm⟩ := hm
    have hparse : parseStats body = .error m := by simp [parseStats, hp, hm]
    simp [probeStep, hst, hne, hhtml, hparse]

/-- Witness for C10: an object with the five fields plus an unknown
`extra` field parses; an object with only `status` fails; a 200
response whose body is that failing object is a skip. -/
theorem stats_shape_parse_spec_witness :
    (∃ s, statsFromJson (.obj
      [("extra", Json.null),
       ("domains_being_blocked", Json.num ⟨false, ['1'], none, false, none⟩),
       ("dns_queries_today", Json.num ⟨false, ['2'], none, false, none⟩),
       ("ads_blocked_today", Json.num ⟨false, ['3'], none, false, none⟩),
       ("ads_percentage_today", Json.num ⟨false, ['3', '0'], some ['5'], false, none⟩),
       ("status", Json.str "enabled")]) = .ok s) ∧
    (∃ m, statsFromJson (.obj [("status", Json.str "enabled")]) = .error m) ∧
    probeStep (.response 200 "\x7b\"status\":\"enabled\"\x7d") = .skip := by
  have hL := stats_shape_parse_spec
    [("extra", Json.null),
     ("domains_being_blocked", Json.num ⟨false, ['1'], none, false, none⟩),
     ("dns_queries_today", Json.num ⟨false, ['2'], none, false, none⟩),
     ("ads_blocked_today", Json.num ⟨false, ['3'], none, false, none⟩),
     ("ads_percentage_today", Json.num ⟨false, ['3', '0'], some ['5'], false, none⟩),
     ("status", Json.str "enabled")]
  have hM := stats_shape_parse_spec [("status", Json.str "enabled")]
  have hmiss := hM.2.1 "domains_being_blocked" (by simp [statsKeys]) (by decide)
  refine ⟨hL.1 (by decide) (by decide) ?_, hmiss,
          hM.2.2 200 "\x7b\"status\":\"enabled\"\x7d" (by decide) (by decide) (by decide)
            (by rfl) hmiss⟩
  intro kv hkv _
  simp only [List.mem_cons, List.not_mem_nil, or_false] at hkv
  rcases hkv with rfl | rfl | rfl | rfl | rfl | rfl <;>
    refine ⟨fun h => ?_, fun h => ?_, fun h => ?_⟩ <;>
    first
      | exact ⟨_, rfl⟩
      | exact absurd h (by decide)

theorem digitCands_sound (l : List Char) (p : List Char × List Char)
    (hp : p ∈ digitCands l) :
    l = p.1 ++ p.2 ∧ (∀ c ∈ p.1, isDigitChar c = true) ∧
      1 ≤ p.1.length ∧ p.1.length ≤ 3 := by
  obtain ⟨n, hn, hif⟩ := List.mem_filterMap.mp hp
  split at hif
  next hcond =>
    injection hif with hif
    subst hif
    have hb : n = 3 ∨ n = 2 ∨ n = 1 := by simpa using hn
    have hn' : 1 ≤ n ∧ n ≤ 3 := by rcases hb with rfl | rfl | rfl <;> omega
    exact ⟨(List.take_append_drop n l).symm, hcond.2,
           by simp only [hcond.1]; exact hn'.1, by simp only [hcond.1]; exact hn'.2⟩
  next => cases hif

theorem digitCands_complete (g r : List Char) (hdig : ∀ c ∈ g, isDigitChar c = true)
    (h1 : 1 ≤ g.length) (h3 : g.length ≤ 3) : (g, r) ∈ digitCands (g ++ r) := by
  refine List.mem_filterMap.mpr ⟨g.length, ?_, ?_⟩
  · have : g.length = 1 ∨ g.length = 2 ∨ g.length = 3 := by omega
    rcases this with h | h | h <;> simp [h]
  · have hcond : ((g ++ r).take g.length).length = g.length ∧
        ∀ c ∈ (g ++ r).take g.length, isDigitChar c = true := by
      rw [List.take_left]
      exact ⟨rfl, hdig⟩
    rw [if_pos hcond, List.take_left, List.drop_left]

theorem dotDigitCands_sound (l : List Char) (p : List Char × List Char)
    (hp : p ∈ dotDigitCands l) :
    ∃ g, l = '.' :: (g ++ p.2) ∧ p.1 = '.' :: g ∧
      (∀ c ∈ g, isDigitChar c = true) ∧ 1 ≤ g.length ∧ g.length ≤ 3 := by
  unfold dotDigitCands at hp
  split at hp
  next c r =>
    split at hp
    · subst ‹c = '.'›
      obtain ⟨q, hq, hpq⟩ := List.mem_map.mp hp
      obtain ⟨he, hdig, h1, h3⟩ := digitCands_sound r q hq
      exact ⟨q.1, by rw [← hpq, he], by rw [← hpq], hdig, h1, h3⟩
    · cases hp
  next => cases hp

theorem dotDigitCands_complete (g r : List Char) (hdig : ∀ c ∈ g, isDigitChar c = true)
    (h1 : 1 ≤ g.length) (h3 : g.length ≤ 3) :
    ('.' :: g, r) ∈ dotDigitCands ('.' :: (g ++ r)) := by
  unfold dotDigitCands
  simp only [if_pos rfl]
  exact List.mem_map.mpr ⟨(g, r), digitCands_complete g r hdig h1 h3, rfl⟩

theorem ipCands_sound (l : List Char) (p : List Char × List Char) (hp : p ∈ ipCands l) :
    l = p.1 ++ p.2 ∧ specIpToken p.1 := by
  unfold ipCands at hp
  obtain ⟨p1, hp1, hp'⟩ := List.mem_flatMap.mp hp
  obtain ⟨p2, hp2, hp''⟩ := List.mem_flatMap.mp hp'
  obtain ⟨p3, hp3, hp'''⟩ := List.mem_flatMap.mp hp''
  obtain ⟨p4, hp4, hpe⟩ := List.mem_map.mp hp'''
  obtain ⟨he1, hd1, ha1, hb1⟩ := digitCands_sound l p1 hp1
  obtain ⟨g2, he2, hg2, hd2, ha2, hb2⟩ := dotDigitCands_sound p1.2 p2 hp2
  obtain ⟨g3, he3, hg3, hd3, ha3, hb3⟩ := dotDigitCands_sound p2.2 p3 hp3
  obtain ⟨g4, he4, hg4, hd4, ha4, hb4⟩ := dotDigitCands_sound p3.2 p4 hp4
  subst hpe
  constructor
  · simp only []
    rw [he1, he2, hg2, he3, hg3, he4, hg4]
    simp
  · refine ⟨p1.1, g2, g3, g4, ?_, ?_⟩
    · simp only []
      rw [hg2, hg3, hg4]
      simp
    · intro g hg
      simp only [List.mem_cons, List.not_mem_nil, or_false] at hg
      rcases hg with rfl | rfl | rfl | rfl
      · exact ⟨hd1, ha1, hb1⟩
      · exact ⟨hd2, ha2, hb2⟩
      · exact ⟨hd3, ha3, hb3⟩
      · exact ⟨hd4, ha4, hb4⟩

theorem ipCands_complete (ip r : List Char) (hip : specIpToken ip) :
    (ip, r) ∈ ipCands (ip ++ r) := by
  obtain ⟨g1, g2, g3, g4, he, hall⟩ := hip
  have h1 := hall g1 (by simp)
  have h2 := hall g2 (by simp)
  have h3 := hall g3 (by simp)
  have h4 := hall g4 (by simp)
  subst he
  refine List.mem_flatMap.mpr ⟨(g1, '.' :: (g2 ++ '.' :: (g3 ++ '.' :: (g4 ++ r)))), ?_, ?_⟩
  · have := digitCands_complete g1 ('.' :: (g2 ++ '.' :: (g3 ++ '.' :: (g4 ++ r))))
      h1.1 h1.2.1 h1.2.2
    simpa using this
  refine List.mem_flatMap.mpr ⟨('.' :: g2, '.' :: (g3 ++ '.' :: (g4 ++ r))), ?_, ?_⟩
  · have := dotDigitCands_complete g2 ('.' :: (g3 ++ '.' :: (g4 ++ r))) h2.1 h2.2.1 h2.2.2
    simpa using this
  refine List.mem_flatMap.mpr ⟨('.' :: g3, '.' :: (g4 ++ r)), ?_, ?_⟩
  · have := dotDigitCands_complete g3 ('.' :: (g4 ++ r)) h3.1 h3.2.1 h3.2.2
    simpa using this
  refine List.mem_map.mpr ⟨('.' :: g4, r), ?_, ?_⟩
  · exact dotDigitCands_complete g4 r h4.1 h4.2.1 h4.2.2
  · simp

theorem macAt_sound (l m : List Char) (h : macAt l = some m) :
    ∃ r, l = m ++ r ∧ macShapeMixed m = true := by
  unfold macAt at h
  split at h
  next a1 b1 s1 a2 b2 s2 a3 b3 s3 a4 b4 s4 a5 b5 s5 a6 b6 rest =>
    split at h
    next hcond =>
      injection h with h
      subst h
      exact ⟨rest, rfl, by simpa [macShapeMixed] using hcond⟩
    next => cases h
  next => cases h

theorem macAt_complete (m r : List Char) (h : macShapeMixed m = true) :
    macAt (m ++ r) = some m := by
  unfold macShapeMixed at h
  split at h
  next a1 b1 s1 a2 b2 s2 a3 b3 s3 a4 b4 s4 a5 b5 s5 a6 b6 =>
    simp [macAt, h]
  next => cases h

theorem macShapeMixed_length (m : List Char) (h : macShapeMixed m = true) :
    m.length = 17 := by
  unfold macShapeMixed at h
  split at h
  next => simp
  next => cases h

theorem macShapeUniform_length (m : List Char) (h : macShapeUniform m = true) :
    m.length = 17 := by
  unfold macShapeUniform at h
  split at h
  next => simp
  next => cases h

theorem macSearch_sound (l m : List Char) (h : macSearch l = some m) :
    ∃ pre suf, l = pre ++ suf ∧ macAt suf = some m := by
  induction l with
  | nil => cases h
  | cons c r ih =>
    unfold macSearch at h
    split at h
    next m2 heq =>
      injection h with h
      subst h
      exact ⟨[], c :: r, rfl, heq⟩
    next heq =>
      split at h
      · cases h
      · obtain ⟨pre, suf, he, hmac⟩ := ih h
        exact ⟨c :: pre, suf, by simp [he], hmac⟩

theorem macSearch_complete :
    ∀ (pre l suf : List Char), l = pre ++ suf → '\n' ∉ l →
      (macAt suf).isSome = true → (macSearch l).isSome = true := by
  intro pre
  induction pre with
  | nil =>
    intro l suf he hnl hm
    simp only [List.nil_append] at he
    subst he
    cases hl : l with
    | nil => rw [hl] at hm; exact absurd hm (by decide)
    | cons c r =>
      rw [hl] at hm
      unfold macSearch
      cases hmac : macAt (c :: r) with
      | some m => simp
      | none => rw [hmac] at hm; simp at hm
  | cons c pre ih =>
    intro l suf he hnl hm
    subst he
    show (macSearch (c :: (pre ++ suf))).isSome = true
    unfold macSearch
    cases hmac : macAt (c :: (pre ++ suf)) with
    | some m => simp
    | none =>
      have hc : ¬ c = '\n' := fun hcc => hnl (by simp [hcc])
      show (if c = '\n' then none else macSearch (pre ++ suf)).isSome = true
      simp only [hc, if_false]
      exact ih (pre ++ suf) suf rfl (fun hmem => hnl (by simp [hmem])) hm

theorem tryMatchAt_sound (l : List Char) (ip mac : List Char)
    (h : tryMatchAt l = some (ip, mac)) :
    ∃ rest, l = ip ++ rest ∧ specIpToken ip ∧ macSearch rest = some mac := by
  unfold tryMatchAt at h
  obtain ⟨p, hp, hf⟩ := List.exists_of_findSome?_eq_some h
  cases hms : macSearch p.2 with
  | none => rw [hms] at hf; cases hf
  | some m =>
    rw [hms] at hf
    injection hf with hf
    rw [Prod.mk.injEq] at hf
    obtain ⟨he, hip⟩ := ipCands_sound l p hp
    exact ⟨p.2, by rw [← hf.1]; exact he, by rw [← hf.1]; exact hip,
           by rw [← hf.2]; exact hms⟩

theorem tryMatchAt_complete (l ip mid mac post : List Char) (hnl : '\n' ∉ l)
    (he : l = ip ++ (mid ++ (mac ++ post))) (hip : specIpToken ip)
    (hmac : macShapeMixed mac = true) : (tryMatchAt l).isSome = true := by
  subst he
  have hmem := ipCands_complete ip (mid ++ (mac ++ post)) hip
  have hms : (macSearch (mid ++ (mac ++ post))).isSome = true := by
    refine macSearch_complete mid _ (mac ++ post) rfl (fun hmem2 => hnl (by simp [hmem2])) ?_
    rw [macAt_complete mac post hmac]
    rfl
  cases htry : tryMatchAt (ip ++ (mid ++ (mac ++ post))) with
  | some x => rfl
  | none =>
    exfalso
    unfold tryMatchAt at htry
    have := (List.findSome?_eq_none_iff.mp htry) _ hmem
    cases hms2 : macSearch (mid ++ (mac ++ post)) with
    | none => rw [hms2] at hms; cases hms
    | some m => rw [hms2] at this; cases this

theorem tryFrom_sound (l : List Char) (x : List Char × List Char)
    (h : tryFrom l = some x) :
    ∃ pre suf, l = pre ++ suf ∧ tryMatchAt suf = some x ∧
      ∀ pre' suf', l = pre' ++ suf' → pre'.length < pre.length →
        tryMatchAt suf' = none := by
  induction l with
  | nil => cases h
  | cons c r ih =>
    unfold tryFrom at h
    split at h
    next y heq =>
      injection h with h
      subst h
      exact ⟨[], c :: r, rfl, heq, fun pre' suf' he hlt => absurd hlt (by simp)⟩
    next hm =>
      obtain ⟨pre, suf, he, hx, hmin⟩ := ih h
      refine ⟨c :: pre, suf, by simp [he], hx, ?_⟩
      intro pre' suf' he' hlt
      cases pre' with
      | nil =>
        simp at he'
        rw [← he']
        exact hm
      | cons c2 p2 =>

        rw [List.cons_append] at he'
        injection he' with hc hr
        exact hmin p2 suf' hr (by simpa using hlt)

theorem tryFrom_complete :
    ∀ (pre l suf : List Char), l = pre ++ suf → (tryMatchAt suf).isSome = true →
      (tryFrom l).isSome = true := by
  intro pre
  induction pre with
  | nil =>
    intro l suf he hm
    simp only [List.nil_append] at he
    subst he
    cases hl : l with
    | nil => rw [hl] at hm; exact absurd hm (by decide)
    | cons c r =>
      subst hl
      unfold tryFrom
      cases htm : tryMatchAt (c :: r) with
      | some x => simp
      | none => rw [htm] at hm; cases hm
  | cons c pre ih =>
    intro l suf he hm
    subst he
    show (tryFrom (c :: (pre ++ suf))).isSome = true
    unfold tryFrom
    cases htm : tryMatchAt (c :: (pre ++ suf)) with
    | some x => simp
    | none => exact ih (pre ++ suf) suf rfl hm

theorem anyTailP_sound (f : List Char → Bool) (l : List Char) (h : anyTailP f l = true) :
    ∃ pre suf, l = pre ++ suf ∧ f suf = true := by
  induction l with
  | nil => exact ⟨[], [], rfl, h⟩
  | cons c r ih =>
    unfold anyTailP at h
    rcases Bool.or_eq_true_iff.mp h with h' | h'
    · exact ⟨[], c :: r, rfl, h'⟩
    · obtain ⟨pre, suf, he, hf⟩ := ih h'
      exact ⟨c :: pre, suf, by simp [he], hf⟩

theorem anyTailP_complete (f : List Char → Bool) :
    ∀ (pre l suf : List Char), l = pre ++ suf → f suf = true → anyTailP f l = true := by
  intro pre
  induction pre with
  | nil =>
    intro l suf he hf
    simp only [List.nil_append] at he
    subst he
    cases l with
    | nil => exact hf
    | cons c r => unfold anyTailP; simp [hf]
  | cons c pre ih =>
    intro l suf he hf
    subst he
    show anyTailP f (c :: (pre ++ suf)) = true
    unfold anyTailP
    simp [ih (pre ++ suf) suf rfl hf]

theorem specLineRule_iff_ruleB (macShape : List Char → Bool)
    (hlen : ∀ t, macShape t = true → t.length = 17) (l : List Char) :
    specLineRule macShape l ↔ specLineRuleB macShape l = true := by
  constructor
  · rintro ⟨pre, ip, mid, mac, post, he, hip, hmac⟩
    unfold specLineRuleB
    subst he
    apply anyTailP_complete _ pre _ (ip ++ (mid ++ (mac ++ post))) (by simp)
    apply List.any_eq_true.mpr
    refine ⟨(ip, mid ++ (mac ++ post)), ipCands_complete ip _ hip, ?_⟩
    apply anyTailP_complete _ mid _ (mac ++ post) rfl
    rw [List.take_left' (hlen mac hmac)]
    exact hmac
  · intro h
    unfold specLineRuleB at h
    obtain ⟨pre, suf, he, hf⟩ := anyTailP_sound _ l h
    obtain ⟨p, hp, hf2⟩ := List.any_eq_true.mp hf
    obtain ⟨hsplit, hip⟩ := ipCands_sound suf p hp
    obtain ⟨mid, suf2, he2, hmac17⟩ := anyTailP_sound _ p.2 hf2
    refine ⟨pre, p.1, mid, suf2.take 17, suf2.drop 17, ?_, hip, hmac17⟩
    rw [he, hsplit, he2]
    simp [List.take_append_drop]

theorem hexChar_map_dash (c : Char) (h : isHexChar c = true) :
    (if c = '-' then ':' else c) = c := by
  by_cases hc : c = '-'
  · rw [hc] at h; exact absurd h (by decide)
  · simp [hc]

theorem sepChar_map_dash (c : Char) (h : isSepChar c = true) :
    (if c = '-' then ':' else c) = ':' := by
  unfold isSepChar at h
  rcases Bool.or_eq_true_iff.mp h with h' | h' <;> simp_all

theorem macShapeMixed_replaceDash (m : List Char) (h : macShapeMixed m = true) :
    macShapeColon (m.map fun c => if c = '-' then ':' else c) = true := by
  unfold macShapeMixed at h
  split at h
  next a1 b1 s1 a2 b2 s2 a3 b3 s3 a4 b4 s4 a5 b5 s5 a6 b6 =>
    simp only [Bool.and_eq_true, and_assoc] at h
    obtain ⟨h1, h2, h3, h4, h5, h6, h7, h8, h9, h10, h11, h12, h13, h14, h15,
            h16, h17⟩ := h
    simp only [List.map_cons, List.map_nil]
    rw [hexChar_map_dash _ h1, hexChar_map_dash _ h2, sepChar_map_dash _ h3,
        hexChar_map_dash _ h4, hexChar_map_dash _ h5, sepChar_map_dash _ h6,
        hexChar_map_dash _ h7, hexChar_map_dash _ h8, sepChar_map_dash _ h9,
        hexChar_map_dash _ h10, hexChar_map_dash _ h11, sepChar_map_dash _ h12,
        hexChar_map_dash _ h13, hexChar_map_dash _ h14, sepChar_map_dash _ h15,
        hexChar_map_dash _ h16, hexChar_map_dash _ h17]
    simp [macShapeColon, h1, h2, h4, h5, h7, h8, h10, h11, h13, h14, h16, h17]
  next => cases h

/-- Counterexample to C7 as stated: uppercase hex in the source line is
preserved (the regex is case-insensitive and the replacement only
touches separators), so the emitted MAC is not lowercase. -/
theorem mac_case_preserved_counterexample :
    parse_arp_output "? (1.2.3.4) at AA:BB:CC:DD:EE:FF" =
      [⟨"1.2.3.4", "AA:BB:CC:DD:EE:FF"⟩] ∧
    macShapeLowerColon ("AA:BB:CC:DD:EE:FF" : String).data = false := by
  decide

/-- Claim C7 as amended: every Device emitted by `parse_arp_output` has a
`mac` of shape `xx:xx:xx:xx:xx:xx` — six two-hex-digit groups joined by
colons — with the hex digits' case preserved from the source text (the
separators, whether `:` or `-` in the source, are normalized to
`:`). -/
theorem parse_arp_mac_shape (output : String) :
    ∀ d ∈ parse_arp_output output, macShapeColon d.mac.data = true := by
  intro d hd
  obtain ⟨line, hline, hdev⟩ := List.mem_filterMap.mp hd
  unfold lineDevice at hdev
  cases htf : tryFrom line.data with
  | none => rw [htf] at hdev; cases hdev
  | some p =>
    rw [htf] at hdev
    injection hdev with hdev
    subst hdev
    obtain ⟨pre, suf, he, hmatch, hmin⟩ := tryFrom_sound line.data p htf
    obtain ⟨rest, hre, hip, hms⟩ :=
      tryMatchAt_sound suf p.1 p.2 (by rw [Prod.mk.eta]; exact hmatch)
    obtain ⟨pre2, suf2, he2, hmac⟩ := macSearch_sound rest p.2 hms
    obtain ⟨r2, he3, hshape⟩ := macAt_sound suf2 p.2 hmac
    exact macShapeMixed_replaceDash p.2 hshape

/-- Witness for C7 (amended): a dash-separated lowercase source line
yields a device whose MAC has the colon shape. -/
theorem parse_arp_mac_shape_witness :
    (⟨"1.2.3.4", "aa:bb:cc:dd:ee:ff"⟩ : Device) ∈
      parse_arp_output "? (1.2.3.4) at aa-bb-cc-dd-ee-ff" ∧
    macShapeColon ("aa:bb:cc:dd:ee:ff" : String).data = true :=
  ⟨by decide,
   parse_arp_mac_shape "? (1.2.3.4) at aa-bb-cc-dd-ee-ff"
     ⟨"1.2.3.4", "aa:bb:cc:dd:ee:ff"⟩ (by decide)⟩

/-- Counterexample to C8 as stated: a line whose only MAC-shaped run
mixes `:` and `-` separators still yields a Device, while the claim's
uniform-separator matching rule does not hold of the line. -/
theorem mac_mixed_sep_counterexample :
    (lineDevice "? (1.2.3.4) at aa:bb-cc:dd-ee:ff on en0").isSome = true ∧
    specLineRuleB macShapeUniform
      ("? (1.2.3.4) at aa:bb-cc:dd-ee:ff on en0" : String).data = false ∧
    ¬ specLineRule macShapeUniform
      ("? (1.2.3.4) at aa:bb-cc:dd-ee:ff on en0" : String).data := by
  refine ⟨by decide, by decide, fun hc => ?_⟩
  have := (specLineRule_iff_ruleB macShapeUniform macShapeUniform_length _).mp hc
  exact absurd this (by decide)

/-- Claim C8 as amended: a line yields a Device iff it contains an
IPv4-shaped token (four groups of 1–3 digits separated by periods)
followed later in the line by a MAC-shaped token of six two-hex-digit
groups whose five separators are each `:` or `-` independently (mixing
allowed). -/
theorem parse_arp_line_rule (line : String) (h : '\n' ∉ line.data) :
    (lineDevice line).isSome = true ↔ specLineRule macShapeMixed line.data := by
  constructor
  · intro hs
    unfold lineDevice at hs
    cases htf : tryFrom line.data with
    | none => rw [htf] at hs; cases hs
    | some p =>
      obtain ⟨pre, suf, he, hmatch, _⟩ := tryFrom_sound line.data p htf
      obtain ⟨rest, hre, hip, hms⟩ :=
        tryMatchAt_sound suf p.1 p.2 (by rw [Prod.mk.eta]; exact hmatch)
      obtain ⟨mid, suf2, he2, hmac⟩ := macSearch_sound rest p.2 hms
      obtain ⟨post, he3, hshape⟩ := macAt_sound suf2 p.2 hmac
      exact ⟨pre, p.1, mid, p.2, post, by rw [he, hre, he2, he3]; simp, hip, hshape⟩
  · rintro ⟨pre, ip, mid, mac, post, he, hip, hmac⟩
    have hnl2 : '\n' ∉ ip ++ (mid ++ (mac ++ post)) := by
      intro hmem
      exact h (by rw [he]; simp at hmem ⊢; tauto)
    have htm : (tryMatchAt (ip ++ (mid ++ (mac ++ post)))).isSome = true :=
      tryMatchAt_complete _ ip mid mac post hnl2 rfl hip hmac
    have he' : line.data = pre ++ (ip ++ (mid ++ (mac ++ post))) := by
      rw [he]; simp [List.append_assoc]
    have hts := tryFrom_complete pre line.data (ip ++ (mid ++ (mac ++ post))) he' htm
    unfold lineDevice
    cases htf : tryFrom line.data with
    | none => rw [htf] at hts; cases hts
    | some p => simp

/-- Witness for C8 (amended): a standard Linux-style line satisfies
both sides of the equivalence. -/
theorem parse_arp_line_rule_witness :
    '\n' ∉ ("? (192.168.1.1) at aa:bb:cc:dd:ee:ff [ether] on eth0" : String).data ∧
    specLineRule macShapeMixed
      ("? (192.168.1.1) at aa:bb:cc:dd:ee:ff [ether] on eth0" : String).data :=
  ⟨by decide,
   (parse_arp_line_rule "? (192.168.1.1) at aa:bb:cc:dd:ee:ff [ether] on eth0"
     (by decide)).mp (by decide)⟩

theorem splitNl_no_newline (l : List Char) (h : '\n' ∉ l) : splitNl l = [l] := by
  induction l with
  | nil => rfl
  | cons c r ih =>
    have hc : ¬ c = '\n' := fun hcc => h (by simp [hcc])
    unfold splitNl
    simp only [hc, if_false]
    rw [ih (fun hm => h (by simp [hm]))]

theorem splitNl_append (l1 l2 : List Char) (h : '\n' ∉ l1) :
    splitNl (l1 ++ '\n' :: l2) = l1 :: splitNl l2 := by
  induction l1 with
  | nil => simp [splitNl]
  | cons c r ih =>
    have hc : ¬ c = '\n' := fun hcc => h (by simp [hcc])
    show splitNl (c :: (r ++ '\n' :: l2)) = (c :: r) :: splitNl l2
    conv_lhs => rw [splitNl]
    simp only [hc, if_false]
    rw [ih (fun hm => h (by simp [hm]))]

theorem rustLines_pair (l1 l2 : String) (h1 : '\n' ∉ l1.data) (h2 : '\n' ∉ l2.data)
    (hr1 : l1.data.getLast? ≠ some '\r')
    (hne : l2 ≠ "") : rustLines (l1 ++ "\n" ++ l2) = [l1, l2] := by
  have hdata : (l1 ++ "\n" ++ l2).data = l1.data ++ '\n' :: l2.data := by
    simp [String.data_append]
  have hd2 : l2.data ≠ [] := fun hc => hne (String.ext (by rw [hc]))
  unfold rustLines
  rw [hdata, splitNl_append _ _ h1, splitNl_no_newline _ h2]
  simp [hd2, hr1]

/-- Claim C9: `parse_arp_output` is the per-line map of the regex matcher
over the input's lines (hence at most one Device per line, in line
order, with no deduplication — two equal lines give two entries); the
Device of a line comes from the match at the leftmost matching start
position, with the IP capture copied verbatim and the MAC capture's
separators normalized to `:`. -/
theorem parse_arp_per_line_spec :
    (∀ output, parse_arp_output output = (rustLines output).filterMap lineDevice) ∧
    (∀ output, (parse_arp_output output).length ≤ (rustLines output).length) ∧
    (∀ line d, lineDevice line = some d →
      ∃ pre suf ip mac, line.data = pre ++ suf ∧ tryMatchAt suf = some (ip, mac) ∧
        d = ⟨⟨ip⟩, replaceDash ⟨mac⟩⟩ ∧
        ∀ pre' suf', line.data = pre' ++ suf' → pre'.length < pre.length →
          tryMatchAt suf' = none) ∧
    (∀ l1 l2 : String, '\n' ∉ l1.data → '\n' ∉ l2.data →
      l1.data.getLast? ≠ some '\r' → l2 ≠ "" →
      parse_arp_output (l1 ++ "\n" ++ l2) =
        (lineDevice l1).toList ++ (lineDevice l2).toList) ∧
    parse_arp_output "? (192.168.1.3) at 77-88-99-aa-bb-cc on en0" =
      [⟨"192.168.1.3", "77:88:99:aa:bb:cc"⟩] := by
  refine ⟨fun _ => rfl, fun output => List.length_filterMap_le _ _, ?_, ?_, by decide⟩
  · intro line d hdev
    unfold lineDevice at hdev
    cases htf : tryFrom line.data with
    | none => rw [htf] at hdev; cases hdev
    | some p =>
      rw [htf] at hdev
      injection hdev with hdev
      obtain ⟨pre, suf, he, hmatch, hmin⟩ := tryFrom_sound line.data p htf
      exact ⟨pre, suf, p.1, p.2, he, by rw [Prod.mk.eta]; exact hmatch, hdev.symm, hmin⟩
  · intro l1 l2 h1 h2 hr1 hne
    unfold parse_arp_output
    rw [rustLines_pair l1 l2 h1 h2 hr1 hne]
    cases hv1 : lineDevice l1 <;> cases hv2 : lineDevice l2 <;>
      simp [List.filterMap_cons, hv1, hv2]

/-- Witness for C9: duplicating the macOS-style spec line produces the
same Device twice, in line order. -/
theorem parse_arp_per_line_spec_witness :
    ('\n' ∉ ("? (192.168.1.3) at 77-88-99-aa-bb-cc on en0" : String).data) ∧
    ("? (192.168.1.3) at 77-88-99-aa-bb-cc on en0" : String).data.getLast? ≠ some '\r' ∧
    ("? (192.168.1.3) at 77-88-99-aa-bb-cc on en0" : String) ≠ "" ∧
    parse_arp_output ("? (192.168.1.3) at 77-88-99-aa-bb-cc on en0" ++ "\n" ++
        "? (192.168.1.3) at 77-88-99-aa-bb-cc on en0") =
      [⟨"192.168.1.3", "77:88:99:aa:bb:cc"⟩, ⟨"192.168.1.3", "77:88:99:aa:bb:cc"⟩] := by
  refine ⟨by decide, by decide, by decide, ?_⟩
  have h := parse_arp_per_line_spec.2.2.2.1
    "? (192.168.1.3) at 77-88-99-aa-bb-cc on en0"
    "? (192.168.1.3) at 77-88-99-aa-bb-cc on en0"
    (by decide) (by decide) (by decide) (by decide)
  rw [h]
  decide
